import Mathlib

/-!
Verification of the mpmm packet-radio core against its specification.

The definitions below are shallow embeddings of the Python sources:
  * `KISS`   — src/kiss/src/kiss/frame.py (KISS framing codec)
  * `AX25`   — src/ax25/src/ax25/frame.py and the identical classes in
               src/src/shared/ax25.py (AX.25 frame codec)
  * `Timer`  — src/ax25/src/ax25/timer.py (the module mpmm_ax25.timer is
               not in the tree; src/mpmm_ax25/tests/test_timer.py matches
               this file's implementation exactly)
  * `MPMM`   — src/mpmm_ax25/src/mpmm_ax25/ax25_connection.py (connection
               state machine)
  * `Shared` — src/src/shared/ax25.py (AX25Client / AX25Controller routing)

Python `bytes` are modelled as `List Nat` (each element < 256 where the
source can only produce such values); fallible code returns `Except`.
-/

namespace KISS

/-- KISSCommand enum (kiss/frame.py). -/
inductive KISSCommand
  | DATA_FRAME
  | TX_DELAY
  | PERSISTENCE
  | SLOT_TIME
  | TX_TAIL
  | FULL_DUPLEX
  | SET_HARDWARE
  | RETURN
deriving DecidableEq, Repr

/-- The enum member's integer value. -/
def KISSCommand.val : KISSCommand → Nat
  | .DATA_FRAME => 0
  | .TX_DELAY => 1
  | .PERSISTENCE => 2
  | .SLOT_TIME => 3
  | .TX_TAIL => 4
  | .FULL_DUPLEX => 5
  | .SET_HARDWARE => 6
  | .RETURN => 255

/-- The enum constructor `KISSCommand(n)`: `none` models the ValueError
raised for a value that is no member. -/
def KISSCommand.ofVal? : Nat → Option KISSCommand
  | 0 => some .DATA_FRAME
  | 1 => some .TX_DELAY
  | 2 => some .PERSISTENCE
  | 3 => some .SLOT_TIME
  | 4 => some .TX_TAIL
  | 5 => some .FULL_DUPLEX
  | 6 => some .SET_HARDWARE
  | 255 => some .RETURN
  | _ => none

/-- KISSCode.FEND. -/
def FEND : Nat := 0xC0
/-- KISSCode.FESC. -/
def FESC : Nat := 0xDB
/-- KISSCode.TFEND. -/
def TFEND : Nat := 0xDC
/-- KISSCode.TFESC. -/
def TFESC : Nat := 0xDD

/-- A single KISS frame (kiss/frame.py KISSFrame).  `__post_init__`
rejects ports outside [0,15]; theorems carry that bound as a hypothesis. -/
structure KISSFrame where
  data : List Nat
  command : KISSCommand
  port : Nat
deriving DecidableEq, Repr

/-- KISSFrame._escape_byte. -/
def escape_byte (b : Nat) : List Nat :=
  if b = FEND then [FESC, TFEND]
  else if b = FESC then [FESC, TFESC]
  else [b]

/-- The loop body of KISSFrame._unescape_frame: the flag records that the
previous byte was an unconsumed FESC.  Note the source checks `byte == FESC`
before it checks the flag, so a FESC directly after a FESC re-arms the flag. -/
def unescapeGo : Bool → List Nat → List Nat
  | _, [] => []
  | escaped, b :: rest =>
    if b = FESC then unescapeGo true rest
    else if escaped then
      (if b = TFEND then FEND else if b = TFESC then FESC else b) :: unescapeGo false rest
    else b :: unescapeGo false rest

/-- KISSFrame._unescape_frame. -/
def unescape_frame (frame : List Nat) : List Nat := unescapeGo false frame

/-- KISSFrame.encode: FEND, escaped type byte, escaped data bytes, FEND. -/
def KISSFrame.encode (f : KISSFrame) : List Nat :=
  [FEND] ++ escape_byte (f.command.val ||| (f.port <<< 4)) ++ (f.data.map escape_byte).flatten ++ [FEND]

/-- Python `bytes.split(sep)` for a one-byte separator: every separator
occurrence splits, and empty runs are kept as empty chunks. -/
def pySplit (sep : Nat) : List Nat → List (List Nat)
  | [] => [[]]
  | b :: rest =>
    match pySplit sep rest with
    | [] => []
    | h :: t => if b = sep then [] :: h :: t else (b :: h) :: t

/-- The per-chunk loop of KISSFrame.decode.  Empty chunks are skipped; a
chunk whose unescaped first byte is 0xFF yields the canonical RETURN frame
(empty data, port 0); otherwise the low nibble must be a KISSCommand value
(else `KISSCommand(...)` raises ValueError, modelled as `.error`), and an
empty unescaped chunk makes `unescaped_frame[0]` raise IndexError. -/
def decodeChunks : List (List Nat) → Except Unit (List KISSFrame)
  | [] => .ok []
  | c :: rest =>
    if c = [] then decodeChunks rest
    else
      match unescape_frame c with
      | [] => .error ()
      | t :: ds =>
        if t = KISSCommand.RETURN.val then do
          let tail ← decodeChunks rest
          .ok (⟨[], .RETURN, 0⟩ :: tail)
        else
          match KISSCommand.ofVal? (t &&& 0x0F) with
          | none => .error ()
          | some cmd => do
            let tail ← decodeChunks rest
            .ok (⟨ds, cmd, (t &&& 0xF0) >>> 4⟩ :: tail)

/-- KISSFrame.decode: split the stream on FEND and decode each chunk. -/
def KISSFrame.decode (data : List Nat) : Except Unit (List KISSFrame) :=
  decodeChunks (pySplit FEND data)

/-- The bytes of an encoded frame strictly between the two delimiting FENDs. -/
def encodedBody (f : KISSFrame) : List Nat :=
  escape_byte (f.command.val ||| (f.port <<< 4)) ++ (f.data.map escape_byte).flatten

/-- Claim C6 as stated: for a valid frame, decoding its encoding yields the
frame itself first, and no FEND appears in the encoded body. -/
def C6Property (K : KISSFrame) : Prop :=
  ((KISSFrame.decode K.encode).toOption.bind List.head?) = some K ∧
  ∀ b ∈ encodedBody K, b ≠ FEND

/-- Claim C7 as stated, at type byte `v`: the single-byte frame `v` decodes
to the empty-data RETURN frame with port 0. -/
def C7Property (v : Nat) : Prop :=
  KISSFrame.decode [FEND, v, FEND] = .ok [⟨[], .RETURN, 0⟩]

end KISS

namespace AX25T

/-- TimerState enum (ax25/timer.py). -/
inductive TimerState
  | STOPPED
  | RUNNING
  | EXPIRED
deriving DecidableEq, Repr

/-- TimerResult enum (ax25/timer.py). -/
inductive TimerResult
  | EXPIRED
  | CANCELLED
  | ERROR
deriving DecidableEq, Repr

/-- A Timer's observable state: its `_state`, the log of callback
invocations in order, and how many `start()` calls succeeded (each
successful start creates one sleep task). -/
structure Timer where
  state : TimerState := .STOPPED
  callbacks : List TimerResult := []
  starts : Nat := 0
deriving DecidableEq, Repr

/-- Timer.start: raises TimerError (`.error`) when already RUNNING,
otherwise schedules the sleep task and becomes RUNNING. -/
def Timer.start (t : Timer) : Except Unit Timer :=
  if t.state = .RUNNING then .error ()
  else .ok { t with state := .RUNNING, starts := t.starts + 1 }

/-- Timer._on_expire, reached when the sleep task finishes naturally:
state becomes EXPIRED and the callback runs with result EXPIRED. -/
def Timer.expire (t : Timer) : Timer :=
  { t with state := .EXPIRED, callbacks := t.callbacks ++ [.EXPIRED] }

/-- Timer.stop: raises TimerError (`.error`) only when STOPPED — note a
timer in state EXPIRED passes this guard — otherwise cancels the task,
runs the callback with result CANCELLED and becomes STOPPED. -/
def Timer.stop (t : Timer) : Except Unit Timer :=
  if t.state = .STOPPED then .error ()
  else .ok { t with state := .STOPPED, callbacks := t.callbacks ++ [.CANCELLED] }

/-- The events that can reach a timer: the two public calls and the sleep
task firing.  The task exists un-cancelled exactly while RUNNING, so a
`expire` event in any other state cannot occur and is a no-op. -/
inductive TimerEvent
  | start
  | expire
  | stop
deriving DecidableEq, Repr

/-- One event against the timer; a TimerError raised by start/stop leaves
the timer unchanged (the exception surfaces to the caller). -/
def stepEvent (t : Timer) : TimerEvent → Timer
  | .start => match t.start with | .ok t' => t' | .error _ => t
  | .stop => match t.stop with | .ok t' => t' | .error _ => t
  | .expire => if t.state = .RUNNING then t.expire else t

/-- A sequence of events against the timer. -/
def runTimer (t : Timer) (es : List TimerEvent) : Timer := es.foldl stepEvent t

/-- The initial timer (constructor state). -/
def initTimer : Timer := {}

/-- Claim C5 as stated: over every event sequence the callback runs exactly
once per (successful) start, and the start-stop scenario fires exactly one
CANCELLED callback, ends STOPPED, and later stops change nothing. -/
def C5Property : Prop :=
  (∀ es : List TimerEvent,
    (runTimer initTimer es).callbacks.length = (runTimer initTimer es).starts) ∧
  (∀ n : Nat,
    runTimer initTimer (.start :: .stop :: List.replicate n .stop)
      = { state := .STOPPED, callbacks := [.CANCELLED], starts := 1 })

end AX25T

namespace AX25

/-- The Python exceptions the codec can raise: IndexError / ValueError on
wire data (the spec's malformed-frame class), NotImplementedError for
modulo-128, and TypeError / OverflowError from encoding a field whose
values cannot be turned into one byte. -/
inductive PyErr
  | malformed
  | notSupported
  | typeErr
deriving DecidableEq, Repr

/-- Characters Python `str.strip()` removes, restricted to code points
below 128 (the only ones that can appear after the decoder's `byte >> 1`). -/
def pyIsSpace (c : Nat) : Bool :=
  c = 32 || (9 ≤ c && c ≤ 13) || (28 ≤ c && c ≤ 31)

/-- Python `str.strip()` on a list of character codes. -/
def pyStrip (l : List Nat) : List Nat :=
  ((l.dropWhile pyIsSpace).reverse.dropWhile pyIsSpace).reverse

/-- AX25Address (frame.py).  `callsign` holds the character codes of the
callsign string; `ssid` the numeric value of the ssid string (the decoder
always produces the canonical decimal numeral, `str((byte & 30) >> 1)`). -/
structure AX25Address where
  callsign : List Nat
  ssid : Nat
  reserved_bit_5 : Bool := true
  reserved_bit_6 : Bool := true
  command_repeat_bit : Bool := false
deriving DecidableEq, Repr

/-- AX25Address.decode.  `address_bytes[6]` raises IndexError on fewer
than 7 bytes; the first six bytes are shifted right and stripped (they are
all < 128 after the shift, so the utf-8 decode cannot fail). -/
def AX25Address.decode (address_bytes : List Nat) : Except PyErr AX25Address :=
  match address_bytes[6]? with
  | none => .error .malformed
  | some b6 =>
    .ok { callsign := pyStrip ((address_bytes.take 6).map (· >>> 1)),
          ssid := (b6 &&& 30) >>> 1,
          reserved_bit_5 := b6 &&& 32 ≠ 0,
          reserved_bit_6 := b6 &&& 64 ≠ 0,
          command_repeat_bit := b6 &&& 128 ≠ 0 }

/-- The seventh encoded address byte: ssid shifted left one, reserved bits
at 32/64, command/repeat bit at 128. -/
def finalByte (a : AX25Address) : Nat :=
  (((a.ssid <<< 1) ||| (if a.reserved_bit_5 then 32 else 0))
    ||| (if a.reserved_bit_6 then 64 else 0))
    ||| (if a.command_repeat_bit then 128 else 0)

/-- AX25Address.encode: the callsign's character codes (space-padded to 6)
each shifted left one, then the ssid/flags byte.  `bytes(...)` raises for
an element that is not a byte — exactly when a character code is ≥ 128
(in Python such a character also makes the encoding fail, its first utf-8
byte being ≥ 0xC2 before the shift) or the final byte overflows. -/
def AX25Address.encode (a : AX25Address) : Except PyErr (List Nat) :=
  let address_bytes := a.callsign ++ List.replicate (6 - a.callsign.length) 32
  let out := address_bytes.map (· <<< 1) ++ [finalByte a]
  if out.all (· < 256) then .ok out else .error .typeErr

/-- AX25AddressField (frame.py); field order as in the dataclass, with the
dataclass defaults. -/
structure AX25AddressField where
  source : AX25Address
  destination : AX25Address
  path : List AX25Address := []
  length : Nat := 0
deriving DecidableEq, Repr

/-- utils.chunk with chunk_size=7: groups of 7, the last possibly short. -/
def chunk7 (l : List Nat) : List (List Nat) :=
  match l with
  | [] => []
  | b :: rest => (b :: rest.take 6) :: chunk7 (rest.drop 6)
termination_by l.length
decreasing_by simp; omega

/-- AX25AddressField.decode: destination from bytes 0–6, source from
7–13, repeaters from the remaining 7-byte chunks, `length` recording how
many bytes were consumed. -/
def AX25AddressField.decode (address_bytes : List Nat) : Except PyErr AX25AddressField := do
  let destination ← AX25Address.decode (address_bytes.take 7)
  let source ← AX25Address.decode ((address_bytes.drop 7).take 7)
  let repeaters ←
    if address_bytes.length > 14 then
      (chunk7 (address_bytes.drop 14)).mapM AX25Address.decode
    else
      pure []
  .ok { source := source, destination := destination, path := repeaters,
        length := address_bytes.length }

/-- `field_bytes[-1] = field_bytes[-1] | 1` — set the end-of-address
marker on the last byte. -/
def setLast1 : List Nat → List Nat
  | [] => []
  | [b] => [b ||| 1]
  | b :: rest => b :: setLast1 rest

/-- AX25AddressField.encode: destination, source, then the path, with the
end-of-address bit set on the very last byte. -/
def AX25AddressField.encode (f : AX25AddressField) : Except PyErr (List Nat) := do
  let d ← f.destination.encode
  let s ← f.source.encode
  let reps ← f.path.mapM AX25Address.encode
  .ok (setLast1 (d ++ s ++ reps.flatten))

/-- AX25AddressField.get_response_field.  The Python method builds the
response from the *same* `AX25Address` objects and then mutates their
command/repeat bits, so `self` is changed as well: the first component is
the returned response field, the second is `self` after the call.  (The
model takes destination, source and path entries to be distinct objects,
as every field produced by `decode` or normal construction is.) -/
def get_response_field (f : AX25AddressField) : AX25AddressField × AX25AddressField :=
  let newDest := { f.destination with command_repeat_bit := true }
  let newSrc := { f.source with command_repeat_bit := false }
  let newPath := f.path.map fun a => { a with command_repeat_bit := false }
  ({ source := newDest, destination := newSrc, path := newPath.reverse, length := f.length },
   { f with source := newSrc, destination := newDest, path := newPath })

/-- AX25FrameType flag values; a combination is the bitwise or of members,
exactly as Python's `Flag` stores it. -/
def I_FRAME : Nat := 1
/-- AX25FrameType.S_FRAME. -/
def S_FRAME : Nat := 2
/-- AX25FrameType.U_FRAME. -/
def U_FRAME : Nat := 4
/-- AX25FrameType.SUP_RR. -/
def SUP_RR : Nat := 8
/-- AX25FrameType.SUP_RNR. -/
def SUP_RNR : Nat := 16
/-- AX25FrameType.SUP_REJ. -/
def SUP_REJ : Nat := 32
/-- AX25FrameType.SUP_SREJ. -/
def SUP_SREJ : Nat := 64
/-- AX25FrameType.UNN_SABME. -/
def UNN_SABME : Nat := 128
/-- AX25FrameType.UNN_SABM. -/
def UNN_SABM : Nat := 256
/-- AX25FrameType.UNN_DISC. -/
def UNN_DISC : Nat := 512
/-- AX25FrameType.UNN_DM. -/
def UNN_DM : Nat := 1024
/-- AX25FrameType.UNN_UA. -/
def UNN_UA : Nat := 2048
/-- AX25FrameType.UNN_FRMR. -/
def UNN_FRMR : Nat := 4096
/-- AX25FrameType.UNN_UI. -/
def UNN_UI : Nat := 8192
/-- AX25FrameType.UNN_XID. -/
def UNN_XID : Nat := 16384
/-- AX25FrameType.UNN_TEST. -/
def UNN_TEST : Nat := 32768

/-- AX25Modulo enum (frame.py). -/
inductive AX25Modulo
  | UNSPECIFIED
  | MOD_8
  | MOD_128
deriving DecidableEq, Repr

/-- The enum member's value. -/
def AX25Modulo.val : AX25Modulo → Nat
  | .UNSPECIFIED => 0
  | .MOD_8 => 1
  | .MOD_128 => 2

/-- AX25ControlField, with the dataclass defaults (length, sequence and
receive all default to 0). -/
structure AX25ControlField where
  frame_type : Nat
  poll_final : Bool
  length : Nat := 0
  sequence : Option Nat := some 0
  receive : Option Nat := some 0
deriving DecidableEq, Repr

/-- decode_uframe_control's match on `field_bytes[0] & 236`: a value
outside the table leaves the frame type at bare U_FRAME (flag 0 added). -/
def uframeBits (m : Nat) : Nat :=
  match m with
  | 108 => UNN_SABME
  | 44 => UNN_SABM
  | 64 => UNN_DISC
  | 12 => UNN_DM
  | 96 => UNN_UA
  | 132 => UNN_FRMR
  | 0 => UNN_UI
  | 172 => UNN_XID
  | 224 => UNN_TEST
  | _ => 0

/-- decode_sframe_control's match on `field_bytes[0] & 12` (the masked
value is always one of 0, 4, 8, 12). -/
def sframeBits (m : Nat) : Nat :=
  match m with
  | 0 => SUP_RR
  | 4 => SUP_RNR
  | 8 => SUP_REJ
  | _ => SUP_SREJ

/-- AX25ControlField.decode (with its decode_iframe_control /
decode_sframe_control / decode_uframe_control helpers inlined).
`field_bytes[0]` on an empty slice raises IndexError. -/
def AX25ControlField.decode (field_bytes : List Nat)
    (modulo : AX25Modulo := .MOD_8) : Except PyErr AX25ControlField :=
  if modulo = .MOD_128 then .error .notSupported else
  match field_bytes with
  | [] => .error .malformed
  | b :: _ =>
    let pf := b &&& 16 ≠ 0
    if b &&& 3 = 0 ∨ b &&& 3 = 2 then
      .ok { frame_type := I_FRAME, poll_final := pf, length := modulo.val,
            sequence := some ((b &&& 14) >>> 1), receive := some ((b &&& 224) >>> 5) }
    else if b &&& 3 = 1 then
      .ok { frame_type := S_FRAME ||| sframeBits (b &&& 12), poll_final := pf,
            length := modulo.val, sequence := none, receive := some ((b &&& 224) >>> 5) }
    else
      .ok { frame_type := U_FRAME ||| uframeBits (b &&& 236), poll_final := pf,
            length := 1, sequence := none, receive := none }

/-- encode_iframe: `None` in sequence or receive raises TypeError; a value
that does not fit one byte makes `int.to_bytes()` raise OverflowError. -/
def encode_iframe (c : AX25ControlField) : Except PyErr (List Nat) :=
  match c.sequence, c.receive with
  | some s, some r =>
    let v := (s <<< 1) + (r <<< 5) + (if c.poll_final then 16 else 0)
    if v < 256 then .ok [v] else .error .typeErr
  | _, _ => .error .typeErr

/-- encode_sframe's match on `frame_type.value & 120`: a value outside
{8,16,32,64} matches no case and adds nothing (encoding as RR). -/
def sframeOffset (m : Nat) : Nat :=
  match m with
  | 8 => 0
  | 16 => 4
  | 32 => 8
  | 64 => 12
  | _ => 0

/-- encode_sframe. -/
def encode_sframe (c : AX25ControlField) : Except PyErr (List Nat) :=
  match c.receive with
  | some r =>
    let v := 1 + sframeOffset (c.frame_type &&& 120) + (if c.poll_final then 16 else 0) + (r <<< 5)
    if v < 256 then .ok [v] else .error .typeErr
  | none => .error .typeErr

/-- encode_uframe's match on `frame_type.value & 65408`: a value outside
the table matches no case and adds nothing (encoding as UI). -/
def uframeOffset (m : Nat) : Nat :=
  match m with
  | 128 => 108
  | 256 => 44
  | 512 => 64
  | 1024 => 12
  | 2048 => 96
  | 4096 => 132
  | 8192 => 0
  | 16384 => 172
  | 32768 => 224
  | _ => 0

/-- encode_uframe (its byte is always < 256). -/
def encode_uframe (c : AX25ControlField) : Except PyErr (List Nat) :=
  .ok [3 + (if c.poll_final then 16 else 0) + uframeOffset (c.frame_type &&& 65408)]

/-- AX25ControlField.encode: dispatch on `frame_type.value & 7`.  When no
case matches, the Python method returns None and the caller's
`frame_data += None` raises TypeError. -/
def AX25ControlField.encode (c : AX25ControlField)
    (modulo : AX25Modulo := .MOD_8) : Except PyErr (List Nat) :=
  if modulo = .MOD_128 then .error .notSupported else
  match c.frame_type &&& 7 with
  | 1 => encode_iframe c
  | 4 => encode_uframe c
  | 2 => encode_sframe c
  | _ => .error .typeErr

/-- The AX25PID enum's member values; `AX25PID(x)` raises ValueError for
any other x. -/
def pidCodes : List Nat :=
  [0x00, 0x01, 0x06, 0x07, 0x08, 0xC3, 0xC4, 0xCA, 0xCB, 0xCC, 0xCD, 0xCE, 0xCF, 0xF0, 0xFF]

/-- AX25Frame; `pid` holds the value of the AX25PID member (`none` models
Python's None). -/
structure AX25Frame where
  address_field : AX25AddressField
  control_field : AX25ControlField
  pid : Option Nat
  modulo : AX25Modulo := .MOD_8
  information : Option (List Nat) := none
deriving DecidableEq, Repr

/-- AX25Frame.decode_address_field's scan: collect bytes up to and
including the first one with bit 0 set. -/
def takeUntilMarker : List Nat → List Nat
  | [] => []
  | b :: rest => if b &&& 1 = 1 then [b] else b :: takeUntilMarker rest

/-- AX25Frame.decode_address_field. -/
def decode_address_field (frame : List Nat) : Except PyErr AX25AddressField :=
  AX25AddressField.decode (takeUntilMarker frame)

/-- AX25Frame.decode.  The control slice is
`frame[offset : offset + modulo.value]`; a PID byte is consumed exactly
when the decoded type intersects I_FRAME|UNN_UI, and must be an AX25PID
member; the rest is the information field. -/
def AX25Frame.decode (frame_data : List Nat)
    (modulo : AX25Modulo := .MOD_8) : Except PyErr AX25Frame :=
  if modulo = .MOD_128 then .error .notSupported else do
  let addr_field ← decode_address_field frame_data
  let control_field ← AX25ControlField.decode ((frame_data.drop addr_field.length).take modulo.val)
  let offset := addr_field.length + control_field.length
  if control_field.frame_type &&& (I_FRAME ||| UNN_UI) ≠ 0 then
    match (frame_data.drop offset).head? with
    | none => .error .malformed
    | some p =>
      if p ∈ pidCodes then
        .ok { address_field := addr_field, control_field := control_field,
              pid := some p, modulo := modulo,
              information := some (frame_data.drop (offset + 1)) }
      else .error .malformed
  else
    .ok { address_field := addr_field, control_field := control_field,
          pid := none, modulo := modulo,
          information := some (frame_data.drop offset) }

/-- AX25Frame.encode.  `if self.pid:` is true for every enum member
(including AX25PID.NONE, value 0); `if self.information:` skips both None
and empty bytes, which appends the same bytes as appending the empty
information itself. -/
def AX25Frame.encode (f : AX25Frame) : Except PyErr (List Nat) := do
  let a ← f.address_field.encode
  let c ← f.control_field.encode f.modulo
  let p := match f.pid with | some v => [v] | none => []
  let i := match f.information with | some l => l | none => []
  .ok (a ++ c ++ p ++ i)

/-- AX25FrameFactory.ua_response (pid is AX25PID.NONE, value 0). -/
def ua_response (axframe : AX25Frame) (poll_final : Bool := false) : AX25Frame :=
  { address_field := (get_response_field axframe.address_field).1,
    control_field := { frame_type := U_FRAME ||| UNN_UA, poll_final := poll_final },
    pid := some 0 }

/-- AX25FrameFactory.dm_response (pid is AX25PID.NONE, value 0). -/
def dm_response (axframe : AX25Frame) (poll_final : Bool := false) : AX25Frame :=
  { address_field := (get_response_field axframe.address_field).1,
    control_field := { frame_type := U_FRAME ||| UNN_DM, poll_final := poll_final },
    pid := some 0 }

end AX25

deriving instance DecidableEq for Except

namespace MPMM

open AX25 AX25T

/-- AX25ConnectionState enum (mpmm_ax25/ax25_connection.py). -/
inductive AX25ConnectionState
  | DISCONNECTED
  | AWAITING_CONNECTION
  | AWAITING_RELEASE
  | CONNECTED
  | TIMER_RECOVERY
deriving DecidableEq, Repr

/-- AX25Connection (mpmm_ax25/ax25_connection.py), with the dataclass
defaults.  The outgoing Queue is a FIFO list; `ui_delivered` logs the
frames handed to the registered UI handlers; `keepalive_timer` is
`_keepalive_timer` (T3) and `i_frame_timer` is `_outstanding_i_frame_timer`
(T1), each a `Timer` from mpmm_ax25.timer (that module is not in the tree;
it is modelled by ax25/timer.py, which src/mpmm_ax25/tests/test_timer.py
matches method for method). -/
structure AX25Connection where
  local_address : AX25Address
  state : AX25ConnectionState := .DISCONNECTED
  remote_address : Option AX25Address := none
  modulo : AX25Modulo := .UNSPECIFIED
  outgoing_frames : List AX25Frame := []
  ui_delivered : List AX25Frame := []
  peer_busy : Bool := false
  sequence_number : Nat := 0
  receive_sequence_number : Nat := 0
  ack_sequence_number : Nat := 0
  keepalive_timer : Timer := {}
  i_frame_timer : Timer := {}
deriving DecidableEq, Repr

/-- AX25Connection._reset_state.  Lines 63–66 call the async
`Timer.stop()` without awaiting it: the coroutine object is created and
discarded, its body never runs, so both timers are unchanged. -/
def reset_state (c : AX25Connection) (discard_outgoing_frames : Bool := true) : AX25Connection :=
  { c with
    outgoing_frames := if discard_outgoing_frames then [] else c.outgoing_frames,
    sequence_number := 0,
    receive_sequence_number := 0,
    ack_sequence_number := 0 }

/-- AX25Connection.send_ax25_frame: put the frame on the outgoing queue. -/
def send_ax25_frame (c : AX25Connection) (frame : AX25Frame) : AX25Connection :=
  { c with outgoing_frames := c.outgoing_frames ++ [frame] }

/-- AX25Connection.handle_ui_frame: hand the frame to every UI handler. -/
def handle_ui_frame (c : AX25Connection) (frame : AX25Frame) : AX25Connection :=
  { c with ui_delivered := c.ui_delivered ++ [frame] }

/-- AX25Connection.disconnected_frame_handler.  The SABM/SABME branches
`await self._keepalive_timer.start()`, which raises TimerError if that
timer is already RUNNING — the `.error` case propagates out of the
handler after the earlier assignments have taken effect. -/
def disconnected_frame_handler (c : AX25Connection) (frame : AX25Frame) :
    Except Unit AX25Connection :=
  let ft := frame.control_field.frame_type
  let pf := frame.control_field.poll_final
  if ft = UNN_SABM ||| U_FRAME then
    if c.modulo ≠ .MOD_128 then
      let c := { c with modulo := .MOD_8, remote_address := some frame.address_field.source }
      let c := reset_state c
      match c.keepalive_timer.start with
      | .error e => .error e
      | .ok t =>
        let c := { c with keepalive_timer := t }
        let c := send_ax25_frame c (ua_response frame pf)
        .ok { c with state := .CONNECTED }
    else
      .ok (send_ax25_frame c (dm_response frame pf))
  else if ft = UNN_SABME ||| U_FRAME then
    if c.modulo ≠ .MOD_8 then
      let c := { c with modulo := .MOD_128, remote_address := some frame.address_field.source }
      let c := reset_state c
      match c.keepalive_timer.start with
      | .error e => .error e
      | .ok t =>
        let c := { c with keepalive_timer := t }
        let c := send_ax25_frame c (ua_response frame pf)
        .ok { c with state := .CONNECTED }
    else
      .ok (send_ax25_frame c (dm_response frame pf))
  else if ft = UNN_UI ||| U_FRAME then
    let c := handle_ui_frame c frame
    if pf then .ok (send_ax25_frame c (dm_response frame true)) else .ok c
  else if ft = UNN_DISC ||| U_FRAME then
    .ok (send_ax25_frame c (dm_response frame pf))
  else
    .ok c

/-- AX25Connection.awaiting_connection_frame_handler. -/
def awaiting_connection_frame_handler (c : AX25Connection) (frame : AX25Frame) :
    AX25Connection :=
  let ft := frame.control_field.frame_type
  let pf := frame.control_field.poll_final
  if ft = UNN_SABM ||| U_FRAME then
    send_ax25_frame c (ua_response frame pf)
  else if ft = UNN_SABME ||| U_FRAME then
    send_ax25_frame c (dm_response frame pf)
  else if ft = UNN_DISC ||| U_FRAME then
    send_ax25_frame c (dm_response frame pf)
  else if ft = UNN_UI ||| U_FRAME then
    let c := handle_ui_frame c frame
    if pf then send_ax25_frame c (dm_response frame true) else c
  else if ft = UNN_DM ||| U_FRAME then
    if pf then { reset_state c with state := .DISCONNECTED } else c
  else if ft = UNN_UA ||| U_FRAME then
    if pf then
      let c := { c with remote_address := some frame.address_field.source }
      { reset_state c with state := .CONNECTED }
    else c
  else c

/-- AX25Connection.awaiting_release_frame_handler (the S-frame branch
tests flag intersection, every other branch exact equality; SABME has no
branch and is ignored). -/
def awaiting_release_frame_handler (c : AX25Connection) (frame : AX25Frame) :
    AX25Connection :=
  let ft := frame.control_field.frame_type
  let pf := frame.control_field.poll_final
  if ft = UNN_SABM ||| U_FRAME then
    send_ax25_frame c (dm_response frame pf)
  else if ft = UNN_DISC ||| U_FRAME then
    send_ax25_frame c (ua_response frame pf)
  else if ft = UNN_UI ||| U_FRAME then
    let c := handle_ui_frame c frame
    if pf then send_ax25_frame c (dm_response frame true) else c
  else if ft &&& S_FRAME ≠ 0 then
    if pf then send_ax25_frame c (dm_response frame true) else c
  else if ft = UNN_UA ||| U_FRAME then
    if pf then { reset_state c with state := .DISCONNECTED } else c
  else if ft = UNN_DM ||| U_FRAME then
    if pf then { reset_state c with state := .DISCONNECTED } else c
  else c

/-- AX25Connection.connected_frame_handler.  In the SABM/SABME branch the
queue is discarded exactly when V(S) ≠ V(A) (taking the just-queued UA
with it), and line 190's `self._keepalive_timer.start()` is an async call
without await: the coroutine never runs, so the timer is untouched.
I-frames and every S-frame other than exactly RR or RNR fall through to
the final else and are only logged. -/
def connected_frame_handler (c : AX25Connection) (frame : AX25Frame) :
    AX25Connection :=
  let ft := frame.control_field.frame_type
  let pf := frame.control_field.poll_final
  if ft = UNN_UI ||| U_FRAME then
    handle_ui_frame c frame
  else if ft = UNN_DISC ||| U_FRAME then
    let c := send_ax25_frame c (ua_response frame pf)
    { reset_state c with state := .DISCONNECTED }
  else if ft = UNN_SABM ||| U_FRAME ∨ ft = UNN_SABME ||| U_FRAME then
    let c := send_ax25_frame c (ua_response frame pf)
    reset_state c (c.sequence_number ≠ c.ack_sequence_number)
  else if ft = UNN_UA ||| U_FRAME then
    { c with state := .AWAITING_CONNECTION }
  else if ft = UNN_DM ||| U_FRAME then
    { reset_state c with state := .DISCONNECTED }
  else if ft = UNN_FRMR ||| U_FRAME then
    { c with state := .AWAITING_CONNECTION }
  else if ft = SUP_RR ||| S_FRAME then
    { c with peer_busy := false }
  else if ft = SUP_RNR ||| S_FRAME then
    { c with peer_busy := true }
  else c

/-- AX25Connection.handle_ax25_frame: dispatch on the connection state
(the TIMER_RECOVERY handler's body is `pass`). -/
def handle_ax25_frame (c : AX25Connection) (frame : AX25Frame) :
    Except Unit AX25Connection :=
  match c.state with
  | .DISCONNECTED => disconnected_frame_handler c frame
  | .AWAITING_CONNECTION => .ok (awaiting_connection_frame_handler c frame)
  | .AWAITING_RELEASE => .ok (awaiting_release_frame_handler c frame)
  | .CONNECTED => .ok (connected_frame_handler c frame)
  | .TIMER_RECOVERY => .ok c

end MPMM

namespace Shared

open AX25

/-- `call_with_ssid` — the string f"{callsign}-{ssid}" — modelled as the
pair (callsign characters, ssid); for the canonical values the codec
produces this representation is in bijection with the string. -/
abbrev CallId := List Nat × Nat

/-- call_with_ssid of an address. -/
def callId (a : AX25Address) : CallId := (a.callsign, a.ssid)

/-- AX25Connection.get_connection_id hashes
f'{local}<->{remote}@{client_id}:{port}' with sha1; the digest is modelled
by the identifying tuple itself. -/
abbrev ConnKey := CallId × CallId × Nat × Nat

/-- The connection state machine of src/src/shared/ax25.py, as far as the
controller's routing touches it: its identifying tuple and its `_incoming`
queue (`recieve` appends to it).  `client` is the owning AX25Client's id. -/
structure SharedConnection where
  local_callsign : CallId
  remote_callsign : CallId
  client : Nat
  port : Nat
  incoming : List AX25Frame := []
deriving DecidableEq, Repr

/-- The connection's own `connection_id` (same tuple the controller keys
the registry with). -/
def SharedConnection.key (c : SharedConnection) : ConnKey :=
  (c.local_callsign, c.remote_callsign, c.client, c.port)

/-- AX25Listener: a registered local callsign (the accept callback is
identified by it; add_listener keeps callsigns unique). -/
structure AX25Listener where
  callsign : CallId
deriving DecidableEq, Repr

/-- AX25Controller: the connection registry and the listener list. -/
structure AX25Controller where
  connections : List (ConnKey × SharedConnection) := []
  listeners : List AX25Listener := []
deriving DecidableEq, Repr

/-- What one `data_recieved` call did: the controller afterwards, which
listener's `incoming_callback` ran, whether the UI callbacks ran, whether
a DM response was queued to the client, and which existing connection the
frame was delivered to. -/
structure RouteResult where
  ctrl : AX25Controller
  accepted : Option CallId := none
  ui_delivered : Bool := false
  dm_enqueued : Bool := false
  delivered_to : Option ConnKey := none
deriving DecidableEq, Repr

/-- Deliver a frame to the connection stored under `key`
(`connection.recieve` puts it on `_incoming`). -/
def deliverTo (l : List (ConnKey × SharedConnection)) (key : ConnKey) (f : AX25Frame) :
    List (ConnKey × SharedConnection) :=
  l.map fun e =>
    if e.1 = key then (e.1, { e.2 with incoming := e.2.incoming ++ [f] }) else e

/-- AX25Controller.data_recieved (shared/ax25.py lines 758–788):
route to an existing connection by (destination, source, client, port);
else UI frames go to the UI callbacks (with a DM when poll/final is set);
else, when the destination callsign is a registered listener's, build a
new connection seeded with this frame, register it, and invoke
`[listener for listener in self._listeners][0].incoming_callback` — the
FIRST listener in the list, whichever listener matched; else drop. -/
def data_recieved (ctrl : AX25Controller) (axframe : AX25Frame)
    (source : Nat) (kiss_port : Nat) : RouteResult :=
  let connection_id : ConnKey :=
    (callId axframe.address_field.destination, callId axframe.address_field.source,
     source, kiss_port)
  if (ctrl.connections.find? (fun e => e.1 = connection_id)).isSome then
    { ctrl := { ctrl with connections := deliverTo ctrl.connections connection_id axframe },
      delivered_to := some connection_id }
  else if axframe.control_field.frame_type &&& UNN_UI ≠ 0 then
    { ctrl := ctrl, ui_delivered := true,
      dm_enqueued := axframe.control_field.poll_final }
  else if (callId axframe.address_field.destination) ∈ ctrl.listeners.map (·.callsign) then
    match ctrl.listeners with
    | [] => { ctrl := ctrl }
    | l :: _ =>
      let connection : SharedConnection :=
        { local_callsign := callId axframe.address_field.destination,
          remote_callsign := callId axframe.address_field.source,
          client := source, port := kiss_port, incoming := [axframe] }
      { ctrl := { ctrl with
          connections := ctrl.connections ++ [(connection.key, connection)] },
        accepted := some l.callsign }
  else
    { ctrl := ctrl }

/-- The body of AX25Client.recieve_frame's try block: decode the KISS
payload as AX.25 and hand the frame to each of the registered data
callbacks (`n` of them). -/
def recieve_frame_body (kf_data : List Nat) (n : Nat) : Except PyErr (List AX25Frame) := do
  let axframe ← AX25Frame.decode kf_data .MOD_8
  pure (List.replicate n axframe)

/-- AX25Client.recieve_frame (shared/ax25.py lines 454–462): the whole
body sits in `try: ... except Exception: logger.exception(...)`, so a
decode failure is logged and swallowed — the call returns normally and no
callback sees a frame.  The result is the list of frames delivered. -/
def recieve_frame (kf_data : List Nat) (n : Nat) : List AX25Frame :=
  match recieve_frame_body kf_data n with
  | .ok fs => fs
  | .error _ => []

end Shared

namespace AX25

/-- A character the spec admits in a callsign: uppercase letter or digit. -/
def validChar (c : Nat) : Prop := (65 ≤ c ∧ c ≤ 90) ∨ (48 ≤ c ∧ c ≤ 57)

instance (c : Nat) : Decidable (validChar c) := by unfold validChar; infer_instance

/-- A valid callsign: at most six uppercase-alphanumeric characters. -/
def validCallsign (cs : List Nat) : Prop := cs.length ≤ 6 ∧ ∀ c ∈ cs, validChar c

instance (cs : List Nat) : Decidable (validCallsign cs) := by
  unfold validCallsign; infer_instance

/-- A valid address: valid callsign and SSID in [0,15]. -/
def validAddress (a : AX25Address) : Prop := validCallsign a.callsign ∧ a.ssid ≤ 15

instance (a : AX25Address) : Decidable (validAddress a) := by
  unfold validAddress; infer_instance

/-- A valid address field: every contained address is valid. -/
def validAddressField (f : AX25AddressField) : Prop :=
  validAddress f.source ∧ validAddress f.destination ∧ ∀ a ∈ f.path, validAddress a

instance (f : AX25AddressField) : Decidable (validAddressField f) := by
  unfold validAddressField; infer_instance

/-- The option holds a sequence number in [0,7]. -/
def optLe7 (o : Option Nat) : Prop := ∃ s, o = some s ∧ s ≤ 7

instance : ∀ o, Decidable (optLe7 o)
  | none => isFalse fun ⟨_, h, _⟩ => Option.noConfusion h
  | some s =>
    if h : s ≤ 7 then isTrue ⟨s, rfl, h⟩
    else isFalse fun ⟨t, ht, hle⟩ => h (Option.some.inj ht ▸ hle)

/-- A modulo-8 control field in the sense of claim C1: one frame family
with one subtype flag, and the sequence numbers the family carries present
and in [0,7]. -/
def claimControlOK (c : AX25ControlField) : Prop :=
  (c.frame_type = I_FRAME ∧ optLe7 c.sequence ∧ optLe7 c.receive)
  ∨ ((c.frame_type = S_FRAME ||| SUP_RR ∨ c.frame_type = S_FRAME ||| SUP_RNR
      ∨ c.frame_type = S_FRAME ||| SUP_REJ ∨ c.frame_type = S_FRAME ||| SUP_SREJ)
     ∧ optLe7 c.receive)
  ∨ (c.frame_type = U_FRAME ||| UNN_SABME ∨ c.frame_type = U_FRAME ||| UNN_SABM
     ∨ c.frame_type = U_FRAME ||| UNN_DISC ∨ c.frame_type = U_FRAME ||| UNN_DM
     ∨ c.frame_type = U_FRAME ||| UNN_UA ∨ c.frame_type = U_FRAME ||| UNN_FRMR
     ∨ c.frame_type = U_FRAME ||| UNN_UI ∨ c.frame_type = U_FRAME ||| UNN_XID
     ∨ c.frame_type = U_FRAME ||| UNN_TEST)

instance (c : AX25ControlField) : Decidable (claimControlOK c) := by
  unfold claimControlOK; infer_instance

/-- A PID slot that is either absent or an AX25PID member's value. -/
def pidValid : Option Nat → Prop
  | none => True
  | some v => v ∈ pidCodes

instance : ∀ o, Decidable (pidValid o)
  | none => isTrue trivial
  | some v => inferInstanceAs (Decidable (v ∈ pidCodes))

/-- Claim C1's notion of a well-formed frame, exactly as the claim words
it: valid addresses, a modulo-8 control field, and a PID present iff the
control field is I or UI (the PID, when present, being a member value). -/
def wellFormedFrame (F : AX25Frame) : Prop :=
  validAddressField F.address_field ∧ F.modulo = .MOD_8 ∧
  claimControlOK F.control_field ∧
  (F.pid ≠ none ↔ F.control_field.frame_type &&& (I_FRAME ||| UNN_UI) ≠ 0) ∧
  pidValid F.pid

instance (F : AX25Frame) : Decidable (wellFormedFrame F) := by
  unfold wellFormedFrame; infer_instance

/-- Claim C1's first half at frame F: encoding then decoding returns F
itself. -/
def C1Property (F : AX25Frame) : Prop :=
  (AX25Frame.encode F).bind (fun bs => AX25Frame.decode bs .MOD_8) = .ok F

instance (F : AX25Frame) : Decidable (C1Property F) := by
  unfold C1Property; infer_instance

/-- A control field exactly as the decoder produces it: length 1 and the
sequence slots of the families that lack them set to None. -/
def canonicalControl (c : AX25ControlField) : Prop :=
  c.length = 1 ∧
  ((c.frame_type = I_FRAME ∧ optLe7 c.sequence ∧ optLe7 c.receive)
   ∨ ((c.frame_type = S_FRAME ||| SUP_RR ∨ c.frame_type = S_FRAME ||| SUP_RNR
       ∨ c.frame_type = S_FRAME ||| SUP_REJ ∨ c.frame_type = S_FRAME ||| SUP_SREJ)
      ∧ c.sequence = none ∧ optLe7 c.receive)
   ∨ ((c.frame_type = U_FRAME ||| UNN_SABME ∨ c.frame_type = U_FRAME ||| UNN_SABM
       ∨ c.frame_type = U_FRAME ||| UNN_DISC ∨ c.frame_type = U_FRAME ||| UNN_DM
       ∨ c.frame_type = U_FRAME ||| UNN_UA ∨ c.frame_type = U_FRAME ||| UNN_FRMR
       ∨ c.frame_type = U_FRAME ||| UNN_UI ∨ c.frame_type = U_FRAME ||| UNN_XID
       ∨ c.frame_type = U_FRAME ||| UNN_TEST)
      ∧ c.sequence = none ∧ c.receive = none))

instance (c : AX25ControlField) : Decidable (canonicalControl c) := by
  unfold canonicalControl; infer_instance

/-- A well-formed frame in decoder-canonical form: the length fields hold
the decoded lengths, absent sequence numbers are None, and the information
field is bytes (possibly empty) rather than None. -/
def canonicalFrame (F : AX25Frame) : Prop :=
  wellFormedFrame F ∧ canonicalControl F.control_field ∧
  F.address_field.length = 14 + 7 * F.address_field.path.length ∧
  F.information.isSome = true

instance (F : AX25Frame) : Decidable (canonicalFrame F) := by
  unfold canonicalFrame; infer_instance

/-- An encoded callsign character: even, and half of it a valid character. -/
def shiftedOkB (b : Nat) : Bool := decide (b % 2 = 0) && decide (validChar (b / 2))

/-- The first six bytes of a wire address: shifted valid characters, then
shifted-space (64) padding. -/
def csBytesOk (bs : List Nat) : Bool := (bs.dropWhile shiftedOkB).all (· == 64)

/-- One 7-byte address group on the wire; `final` tells whether it closes
the address field (end-of-address bit in the last byte). -/
def canonGroup (g : List Nat) (final : Bool) : Prop :=
  g.length = 7 ∧ csBytesOk (g.take 6) = true ∧
  g.getLastD 0 < 256 ∧ g.getLastD 0 % 2 = (if final then 1 else 0)

instance (g : List Nat) (final : Bool) : Decidable (canonGroup g final) := by
  unfold canonGroup; infer_instance

/-- The unnumbered-type values `decode_uframe_control` recognises. -/
def uframeTable : List Nat := [108, 44, 64, 12, 96, 132, 0, 172, 224]

/-- A well-formed modulo-8 control byte: for the U family the type bits
must be one of the nine known patterns (any I or S byte round-trips). -/
def wfCtrlByte (b : Nat) : Prop := b < 256 ∧ (b &&& 3 = 3 → b &&& 236 ∈ uframeTable)

instance (b : Nat) : Decidable (wfCtrlByte b) := by
  unfold wfCtrlByte; infer_instance

/-- The control bytes after which the decoder consumes a PID byte: the I
family, or the UI pattern of the U family. -/
def needsPid (b : Nat) : Prop := b &&& 3 = 0 ∨ b &&& 3 = 2 ∨ (b &&& 3 = 3 ∧ b &&& 236 = 0)

instance (b : Nat) : Decidable (needsPid b) := by
  unfold needsPid; infer_instance

/-- Claim C1's notion of a well-formed wire frame: at least two canonical
7-byte address groups of which exactly the last carries the end-of-address
bit, a well-formed control byte, a PID byte from the AX25PID table exactly
when the control byte calls for one, and arbitrary information bytes. -/
def wfWire (B : List Nat) : Prop :=
  ∃ (groups : List (List Nat)) (ctrl : Nat) (pidPart info : List Nat),
    B = groups.flatten ++ ctrl :: (pidPart ++ info) ∧
    2 ≤ groups.length ∧
    (∀ g ∈ groups.dropLast, canonGroup g false) ∧
    canonGroup (groups.getLastD []) true ∧
    wfCtrlByte ctrl ∧
    (needsPid ctrl → ∃ p ∈ pidCodes, pidPart = [p]) ∧
    (¬ needsPid ctrl → pidPart = [])

/-- The bytes AX25Address.encode produces for an address whose characters
are all below 128: space-padded callsign shifted left, then the flags
byte. -/
def encA (a : AX25Address) : List Nat :=
  (a.callsign ++ List.replicate (6 - a.callsign.length) 32).map (· <<< 1) ++ [finalByte a]

/-- The bytes AX25AddressField.encode produces: destination, source and
path encodings with the end-of-address bit set on the last byte. -/
def encF (f : AX25AddressField) : List Nat :=
  setLast1 (encA f.destination ++ encA f.source ++ (f.path.map encA).flatten)

/-- Claim C10 as stated at field F: the call does not leave F unchanged,
and afterwards the command/repeat bits of F (and of the returned response
field) are as listed. -/
def C10Property (f : AX25AddressField) : Prop :=
  (get_response_field f).2 ≠ f ∧
  (get_response_field f).2.destination.command_repeat_bit = true ∧
  (get_response_field f).2.source.command_repeat_bit = false ∧
  (∀ a ∈ (get_response_field f).2.path, a.command_repeat_bit = false) ∧
  (get_response_field f).1.source.command_repeat_bit = true ∧
  (get_response_field f).1.destination.command_repeat_bit = false ∧
  (∀ a ∈ (get_response_field f).1.path, a.command_repeat_bit = false)

end AX25

namespace MPMM

open AX25 AX25T

/-- Claim C2 as stated, at a CONNECTED connection c and a SABM/SABME frame
f: the handler enqueues a UA with matching poll/final, resets the sequence
state, preserves the outgoing queue iff V(S) ≠ V(A) at receipt (and drops
it otherwise), and restarts the T3 keepalive timer. -/
def C2Property (c : AX25Connection) (f : AX25Frame) : Prop :=
  let c' := connected_frame_handler c f
  let ua := ua_response f f.control_field.poll_final
  ua ∈ c'.outgoing_frames ∧
  c'.sequence_number = 0 ∧ c'.receive_sequence_number = 0 ∧ c'.ack_sequence_number = 0 ∧
  (c.sequence_number ≠ c.ack_sequence_number →
    c'.outgoing_frames = c.outgoing_frames ++ [ua]) ∧
  (c.sequence_number = c.ack_sequence_number → c'.outgoing_frames = [ua]) ∧
  c'.keepalive_timer.starts = c.keepalive_timer.starts + 1 ∧
  c'.keepalive_timer.state = .RUNNING

/-- Claim C3 as stated, at a DISCONNECTED connection c and a SABM frame f:
the handler returns normally with the sequence state reset, the frame's
source recorded as remote address, exactly one UA with matching poll/final
enqueued, T3 RUNNING afterwards and the state CONNECTED. -/
def C3Property (c : AX25Connection) (f : AX25Frame) : Prop :=
  ∃ c', handle_ax25_frame c f = .ok c' ∧
    c'.sequence_number = 0 ∧ c'.receive_sequence_number = 0 ∧
    c'.ack_sequence_number = 0 ∧
    c'.remote_address = some f.address_field.source ∧
    c'.outgoing_frames = [ua_response f f.control_field.poll_final] ∧
    c'.keepalive_timer.state = .RUNNING ∧
    c'.state = .CONNECTED

/-- Claim C4 as stated, at a CONNECTED connection c and an in-sequence
I-frame f: V(R) is incremented (mod 8) and, the peer not being busy, an RR
response is scheduled.  (The payload-delivery part has no counterpart at
all: the connection class has no data observers.) -/
def C4Property (c : AX25Connection) (f : AX25Frame) : Prop :=
  let c' := connected_frame_handler c f
  c'.receive_sequence_number = (c.receive_sequence_number + 1) % 8 ∧
  (∃ g ∈ c'.outgoing_frames, g.control_field.frame_type = S_FRAME ||| SUP_RR)

end MPMM

namespace Shared

open AX25

/-- Claim C8 as stated, at a controller, frame, client and port: when no
connection matches, the frame is not UI, and the destination matches a
registered listener, a new connection keyed by (destination, source,
client, port) is created, receives the frame, is registered, and the
MATCHING listener's accept callback is invoked. -/
def C8Property (ctrl : AX25Controller) (axframe : AX25Frame)
    (source kiss_port : Nat) : Prop :=
  let r := data_recieved ctrl axframe source kiss_port
  let key : ConnKey :=
    (callId axframe.address_field.destination, callId axframe.address_field.source,
     source, kiss_port)
  r.accepted = some (callId axframe.address_field.destination) ∧
  (∃ e ∈ r.ctrl.connections, e.1 = key ∧ e.2.incoming = [axframe])

end Shared

namespace Samples

open AX25 AX25T MPMM Shared

/-- Sample address K0JLB-9 (callsign character codes). -/
def addrK : AX25Address := { callsign := [75, 48, 74, 76, 66], ssid := 9 }

/-- Sample address NOCALL-15. -/
def addrN : AX25Address := { callsign := [78, 79, 67, 65, 76, 76], ssid := 15 }

/-- A SABM frame from NOCALL-15 to K0JLB-9 with poll=false. -/
def sabmF : AX25Frame :=
  { address_field := { source := addrN, destination := addrK },
    control_field := { frame_type := UNN_SABM ||| U_FRAME, poll_final := false },
    pid := none }

/-- A fresh connection listening as K0JLB-9. -/
def conn3 : AX25Connection := { local_address := addrK }

/-- A DM frame from NOCALL-15 to K0JLB-9 with poll=false. -/
def dmF : AX25Frame :=
  { address_field := { source := addrN, destination := addrK },
    control_field := { frame_type := UNN_DM ||| U_FRAME, poll_final := false },
    pid := none }

/-- The connection reached from `conn3` by a SABM connect followed by a
DM: DISCONNECTED again, with the outgoing queue discarded, but T3 still
RUNNING because `_reset_state`'s `Timer.stop()` coroutine is never
awaited. -/
def conn3r : AX25Connection :=
  { local_address := addrK, state := .DISCONNECTED, modulo := .MOD_8,
    remote_address := some addrN,
    keepalive_timer := { state := .RUNNING, callbacks := [], starts := 1 } }

/-- A CONNECTED connection with one queued frame and V(S)=1 ≠ V(A)=0. -/
def conn2 : AX25Connection :=
  { local_address := addrK, state := .CONNECTED, modulo := .MOD_8,
    remote_address := some addrN,
    outgoing_frames := [sabmF],
    sequence_number := 1, ack_sequence_number := 0,
    keepalive_timer := { state := .RUNNING, callbacks := [], starts := 1 } }

/-- An in-sequence I-frame (N(S) = 0) from NOCALL-15 to K0JLB-9. -/
def iframeF : AX25Frame :=
  { address_field := { source := addrN, destination := addrK },
    control_field := { frame_type := I_FRAME, poll_final := false, length := 1,
                       sequence := some 0, receive := some 0 },
    pid := some 0xF0, information := some [72, 73] }

/-- A CONNECTED connection with V(R)=0 and an idle peer. -/
def conn4 : AX25Connection :=
  { local_address := addrK, state := .CONNECTED, modulo := .MOD_8,
    remote_address := some addrN,
    keepalive_timer := { state := .RUNNING, callbacks := [], starts := 1 } }

/-- Listener X-0. -/
def lisX : Shared.AX25Listener := { callsign := ([88], 0) }

/-- Listener Y-0. -/
def lisY : Shared.AX25Listener := { callsign := ([89], 0) }

/-- A controller with two listeners, X-0 registered before Y-0. -/
def ctrl8 : Shared.AX25Controller := { listeners := [lisX, lisY] }

/-- A SABM frame from Z-0 addressed to listener Y-0. -/
def frame8 : AX25Frame :=
  { address_field := { source := { callsign := [90], ssid := 0 },
                       destination := { callsign := [89], ssid := 0 } },
    control_field := { frame_type := UNN_SABM ||| U_FRAME, poll_final := false },
    pid := none }

/-- An address field whose command/repeat bits already have the response
values (destination set, source and path clear). -/
def f10 : AX25AddressField :=
  { source := { callsign := [65], ssid := 0 },
    destination := { callsign := [66], ssid := 0, command_repeat_bit := true },
    path := [] }

/-- Claim C1 counterexample frame: valid addresses, a modulo-8 RR control
field, no PID — well-formed in the claim's sense, but carrying the
dataclass defaults (length fields 0, sequence 0, information None). -/
def c1F0 : AX25Frame :=
  { address_field := { source := { callsign := [65], ssid := 0 },
                       destination := { callsign := [66], ssid := 0 } },
    control_field := { frame_type := S_FRAME ||| SUP_RR, poll_final := false },
    pid := none }

/-- The same frame in decoder-canonical form. -/
def c1F1 : AX25Frame :=
  { address_field := { source := { callsign := [65], ssid := 0 },
                       destination := { callsign := [66], ssid := 0 },
                       length := 14 },
    control_field := { frame_type := S_FRAME ||| SUP_RR, poll_final := false,
                       length := 1, sequence := none, receive := some 0 },
    pid := none, information := some [] }

/-- A concrete well-formed wire frame: two address groups (B-0 then A-0,
marked final), a UA control byte with final set. -/
def c1B1 : List Nat :=
  [132, 64, 64, 64, 64, 64, 96, 130, 64, 64, 64, 64, 64, 97, 0x73]

end Samples


namespace KISS

theorem escape_byte_ne_fend (b : Nat) : ∀ x ∈ escape_byte b, x ≠ FEND := by
  unfold escape_byte FEND FESC TFEND TFESC
  split
  · simp
  · split <;> simp <;> omega

theorem escape_byte_ne_nil (b : Nat) : escape_byte b ≠ [] := by
  unfold escape_byte
  split
  · simp
  · split <;> simp

theorem unescapeGo_escape (b : Nat) (l : List Nat) :
    unescapeGo false (escape_byte b ++ l) = b :: unescapeGo false l := by
  by_cases hF : b = FEND
  · subst hF; simp [escape_byte, unescapeGo, FEND, FESC, TFEND, TFESC]
  · by_cases hE : b = FESC
    · subst hE; simp [escape_byte, unescapeGo, FEND, FESC, TFEND, TFESC]
    · rw [escape_byte, if_neg hF, if_neg hE]
      simp [unescapeGo, hE]

theorem unescapeGo_escList (l : List Nat) :
    unescapeGo false ((l.map escape_byte).flatten) = l := by
  induction l with
  | nil => rfl
  | cons b rest ih => simp only [List.map_cons, List.flatten_cons, unescapeGo_escape, ih]

theorem pySplit_ne_nil (sep : Nat) (l : List Nat) : pySplit sep l ≠ [] := by
  induction l with
  | nil => simp [pySplit]
  | cons b rest ih =>
    unfold pySplit
    cases h : pySplit sep rest with
    | nil => exact absurd h ih
    | cons x xs =>
      show (if b = sep then [] :: x :: xs else (b :: x) :: xs) ≠ []
      split <;> simp

theorem pySplit_sep_cons (sep : Nat) (l : List Nat) :
    pySplit sep (sep :: l) = [] :: pySplit sep l := by
  simp only [pySplit]
  cases h : pySplit sep l with
  | nil => exact absurd h (pySplit_ne_nil sep l)
  | cons x xs => simp

theorem pySplit_mid (sep : Nat) (mid rest : List Nat) (h : ∀ b ∈ mid, b ≠ sep) :
    pySplit sep (mid ++ sep :: rest) = mid :: pySplit sep rest := by
  induction mid with
  | nil => simpa using pySplit_sep_cons sep rest
  | cons b m ih =>
    have hb : b ≠ sep := h b (by simp)
    have ihm := ih (fun x hx => h x (by simp [hx]))
    show pySplit sep (b :: (m ++ sep :: rest)) = (b :: m) :: pySplit sep rest
    conv_lhs => rw [pySplit]
    rw [ihm]
    simp [hb]

theorem decode_encode_chunks (K : KISSFrame) :
    pySplit FEND K.encode = [[], encodedBody K, []] := by
  have hbody : ∀ b ∈ encodedBody K, b ≠ FEND := by
    intro b hb
    unfold encodedBody at hb
    rcases List.mem_append.mp hb with h | h
    · exact escape_byte_ne_fend _ b h
    · obtain ⟨l, hl, hbl⟩ := List.mem_flatten.mp h
      obtain ⟨x, _, rfl⟩ := List.mem_map.mp hl
      exact escape_byte_ne_fend _ b hbl
  have henc : K.encode = FEND :: (encodedBody K ++ FEND :: []) := by
    simp [KISSFrame.encode, encodedBody]
  rw [henc, pySplit_sep_cons, pySplit_mid FEND _ _ hbody]
  rfl

theorem encodedBody_unescape (K : KISSFrame) :
    unescape_frame (encodedBody K)
      = (K.command.val ||| (K.port <<< 4)) :: K.data := by
  unfold encodedBody unescape_frame
  rw [unescapeGo_escape, unescapeGo_escList]

theorem encodedBody_ne_nil (K : KISSFrame) : encodedBody K ≠ [] := by
  unfold encodedBody
  intro h
  exact escape_byte_ne_nil _ (List.append_eq_nil.mp h).1

theorem typeByte_return (p : Nat) (hp : p ≤ 15) :
    KISSCommand.RETURN.val ||| (p <<< 4) = 255 := by
  interval_cases p <;> decide

theorem typeByte_fields (cmd : KISSCommand) (p : Nat) (hc : cmd ≠ .RETURN) (hp : p ≤ 15) :
    (cmd.val ||| (p <<< 4)) ≠ KISSCommand.RETURN.val ∧
    KISSCommand.ofVal? ((cmd.val ||| (p <<< 4)) &&& 0x0F) = some cmd ∧
    ((cmd.val ||| (p <<< 4)) &&& 0xF0) >>> 4 = p := by
  cases cmd <;> first
    | exact absurd rfl hc
    | (interval_cases p <;> decide)

/-- C6 (counterexample): the round trip fails as stated for a valid RETURN
frame with a nonzero port — decoding its encoding yields the canonical
empty RETURN frame with port 0 instead. -/
theorem C6_counterexample : ¬ C6Property ⟨[], .RETURN, 1⟩ := by
  unfold C6Property
  decide

/-- C6 (amended): for every valid KISS frame the encoded body between the
delimiting FENDs contains no FEND, and decode ∘ encode returns exactly the
frame itself when the command is not RETURN — a RETURN frame instead
decodes to the canonical empty-data RETURN frame with port 0. -/
theorem C6_kiss_roundtrip (K : KISSFrame) (hp : K.port ≤ 15) :
    (∀ b ∈ encodedBody K, b ≠ FEND) ∧
    (K.command ≠ .RETURN → KISSFrame.decode K.encode = .ok [K]) ∧
    (K.command = .RETURN → KISSFrame.decode K.encode = .ok [⟨[], .RETURN, 0⟩]) := by
  have hbody : ∀ b ∈ encodedBody K, b ≠ FEND := by
    intro b hb
    unfold encodedBody at hb
    rcases List.mem_append.mp hb with h | h
    · exact escape_byte_ne_fend _ b h
    · obtain ⟨l, hl, hbl⟩ := List.mem_flatten.mp h
      obtain ⟨x, _, rfl⟩ := List.mem_map.mp hl
      exact escape_byte_ne_fend _ b hbl
  refine ⟨hbody, ?_, ?_⟩
  · intro hc
    obtain ⟨hne, hof, hport⟩ := typeByte_fields K.command K.port hc hp
    unfold KISSFrame.decode
    rw [decode_encode_chunks]
    unfold decodeChunks
    rw [if_pos rfl]
    unfold decodeChunks
    rw [if_neg (encodedBody_ne_nil K), encodedBody_unescape]
    simp [decodeChunks, hne, hof, hport]
    rfl
  · intro hc
    unfold KISSFrame.decode
    rw [decode_encode_chunks]
    unfold decodeChunks
    rw [if_pos rfl]
    unfold decodeChunks
    rw [if_neg (encodedBody_ne_nil K), encodedBody_unescape]
    rw [hc, typeByte_return K.port hp]
    rfl

/-- C6 (witness): the round-trip theorem applied to a concrete frame. -/
theorem C6_witness :
    KISSFrame.decode (KISSFrame.encode ⟨[0x54, 0xC0, 0xDB], .DATA_FRAME, 12⟩)
      = .ok [⟨[0x54, 0xC0, 0xDB], .DATA_FRAME, 12⟩] :=
  (C6_kiss_roundtrip ⟨[0x54, 0xC0, 0xDB], .DATA_FRAME, 12⟩ (by decide)).2.1 (by decide)

/-- C7 (counterexample): the type byte 0x1F has low nibble 0x0F (the
RETURN command code) but does not decode to a RETURN frame — the command
lookup raises instead. -/
theorem C7_counterexample : (0x1F &&& 0x0F = 0x0F) ∧ ¬ C7Property 0x1F := by
  unfold C7Property
  decide

set_option maxRecDepth 4000 in
/-- C7 (amended): only the exact single type byte 0xFF decodes to the
empty-data RETURN frame with port 0; every other single-byte frame whose
low nibble is 0x0F fails the KISSCommand lookup and decode raises. -/
theorem C7_return_decode :
    C7Property 0xFF ∧
    ∀ v < 256, v &&& 0x0F = 0x0F → v ≠ 0xFF →
      KISSFrame.decode [FEND, v, FEND] = .error () := by
  unfold C7Property
  decide

end KISS

namespace AX25T

theorem foldl_stop_stopped (n : Nat) (t : Timer) (h : t.state = .STOPPED) :
    (List.replicate n TimerEvent.stop).foldl stepEvent t = t := by
  induction n with
  | zero => rfl
  | succ m ih =>
    rw [List.replicate_succ, List.foldl_cons]
    have hstep : stepEvent t .stop = t := by
      unfold stepEvent Timer.stop
      rw [h]
      simp
    rw [hstep, ih]

/-- C5 (counterexample): the callback does not run exactly once per start —
after a start, a natural expiry and then a stop() call, the callback has
run twice (EXPIRED then CANCELLED) for a single start, because stop() only
rejects the STOPPED state, not EXPIRED. -/
theorem C5_counterexample : ¬ C5Property :=
  fun h => absurd (h.1 [.start, .expire, .stop]) (by decide)

/-- C5 (amended): starting a timer and stopping it before expiry fires the
callback exactly once with result CANCELLED and leaves the timer STOPPED,
and any number of later stop calls raise without firing it again; a start
followed by natural expiry fires it once with EXPIRED; but a stop after
natural expiry is accepted and fires a second CANCELLED callback for the
same start. -/
theorem C5_timer_cancel (n : Nat) :
    runTimer initTimer (.start :: .stop :: List.replicate n .stop)
      = { state := .STOPPED, callbacks := [.CANCELLED], starts := 1 } ∧
    runTimer initTimer [.start, .expire]
      = { state := .EXPIRED, callbacks := [.EXPIRED], starts := 1 } ∧
    runTimer initTimer [.start, .expire, .stop]
      = { state := .STOPPED, callbacks := [.EXPIRED, .CANCELLED], starts := 1 } := by
  refine ⟨?_, by decide, by decide⟩
  show List.foldl stepEvent initTimer (.start :: .stop :: List.replicate n .stop)
    = { state := .STOPPED, callbacks := [.CANCELLED], starts := 1 }
  rw [List.foldl_cons, List.foldl_cons]
  rw [show stepEvent initTimer .start
      = { state := .RUNNING, callbacks := [], starts := 1 } from by decide]
  rw [show stepEvent ({ state := .RUNNING, callbacks := [], starts := 1 } : Timer) .stop
      = { state := .STOPPED, callbacks := [.CANCELLED], starts := 1 } from by decide]
  exact foldl_stop_stopped n _ rfl

end AX25T

namespace MPMM

open AX25 AX25T

/-- C2 (counterexample): a CONNECTED connection with one queued frame and
V(S)=1 ≠ V(A)=0 receives a SABM; the claim requires the queue (plus the
UA) to be preserved and T3 to be restarted, but the handler discards the
whole queue — the UA with it — and leaves the timer untouched. -/
theorem C2_counterexample :
    Samples.conn2.state = .CONNECTED ∧
    Samples.sabmF.control_field.frame_type = UNN_SABM ||| U_FRAME ∧
    Samples.conn2.sequence_number ≠ Samples.conn2.ack_sequence_number ∧
    ¬ C2Property Samples.conn2 Samples.sabmF := by
  unfold C2Property
  decide

/-- C2 (amended): a CONNECTED connection receiving SABM or SABME enqueues
a UA with matching P/F and resets the sequence state, but the outgoing
queue (including that UA) is preserved iff V(S) = V(A) at receipt and is
discarded entirely otherwise, and the T3 keepalive timer is left exactly
as it was — the stop/start coroutines on lines 63–66 and 190 are never
awaited, so no restart happens. -/
theorem C2_sabm_connected (c : AX25Connection) (f : AX25Frame)
    (hstate : c.state = .CONNECTED)
    (hty : f.control_field.frame_type = UNN_SABM ||| U_FRAME ∨
           f.control_field.frame_type = UNN_SABME ||| U_FRAME) :
    ∃ c', handle_ax25_frame c f = .ok c' ∧
      c'.sequence_number = 0 ∧ c'.receive_sequence_number = 0 ∧ c'.ack_sequence_number = 0 ∧
      c'.state = .CONNECTED ∧
      c'.keepalive_timer = c.keepalive_timer ∧
      (c.sequence_number = c.ack_sequence_number →
        c'.outgoing_frames = c.outgoing_frames ++ [ua_response f f.control_field.poll_final]) ∧
      (c.sequence_number ≠ c.ack_sequence_number → c'.outgoing_frames = []) := by
  refine ⟨connected_frame_handler c f, by simp [handle_ax25_frame, hstate], ?_⟩
  by_cases hseq : c.sequence_number = c.ack_sequence_number <;>
    rcases hty with h | h <;>
      simp [connected_frame_handler, h, send_ax25_frame, reset_state, hseq, hstate,
            UNN_UI, UNN_DISC, UNN_SABM, UNN_SABME, UNN_UA, UNN_DM, UNN_FRMR,
            SUP_RR, SUP_RNR, S_FRAME, U_FRAME, I_FRAME]

/-- C2 (witness): the amended theorem at the concrete connection. -/
theorem C2_witness :
    ∃ c', handle_ax25_frame Samples.conn2 Samples.sabmF = .ok c' ∧
      c'.sequence_number = 0 ∧
      c'.keepalive_timer = Samples.conn2.keepalive_timer ∧
      c'.outgoing_frames = [] := by
  obtain ⟨c', h1, h2, _, _, _, h6, _, h8⟩ :=
    C2_sabm_connected Samples.conn2 Samples.sabmF rfl (Or.inl rfl)
  exact ⟨c', h1, h2, h6, h8 (by decide)⟩

/-- C3 (counterexample): the DISCONNECTED connection `Samples.conn3r` —
reached from a fresh connection by a SABM connect followed by a DM, so
its T3 timer is still RUNNING because `_reset_state` never awaits its
`Timer.stop()` calls — is in the claim's scope (DISCONNECTED, modulo
MOD_8), yet receiving a SABM makes the awaited `_keepalive_timer.start()`
raise TimerError: the handler aborts, no UA is enqueued and the
connection does not move to CONNECTED, refuting the claim's universal
statement. -/
theorem C3_counterexample :
    Samples.conn3r.state = .DISCONNECTED ∧
    Samples.conn3r.modulo ≠ .MOD_128 ∧
    (handle_ax25_frame Samples.conn3 Samples.sabmF).bind
        (fun c1 => handle_ax25_frame c1 Samples.dmF) = .ok Samples.conn3r ∧
    handle_ax25_frame Samples.conn3r Samples.sabmF = .error () ∧
    ¬ C3Property Samples.conn3r Samples.sabmF := by
  refine ⟨rfl, by decide, by decide, rfl, ?_⟩
  intro hP
  unfold C3Property at hP
  obtain ⟨c', h, _⟩ := hP
  rw [show handle_ax25_frame Samples.conn3r Samples.sabmF = .error () from rfl] at h
  exact Except.noConfusion h

/-- C3 (amended): a DISCONNECTED connection not committed to MOD_128 that
receives a SABM connects exactly when its T3 keepalive timer is not
already RUNNING: then the sequence state is reset, the frame's source is
recorded as remote address, exactly one UA with matching poll/final is
enqueued, T3 is started (RUNNING afterwards) and the state becomes
CONNECTED.  When T3 is still RUNNING — reachable because `_reset_state`
never awaits its `Timer.stop()` calls, e.g. after a connect/disconnect
cycle — the awaited `start()` raises TimerError and the handler aborts:
no UA, no CONNECTED. -/
theorem C3_sabm_connect (c : AX25Connection) (f : AX25Frame)
    (hstate : c.state = .DISCONNECTED)
    (hmod : c.modulo ≠ .MOD_128)
    (hty : f.control_field.frame_type = UNN_SABM ||| U_FRAME) :
    (c.keepalive_timer.state ≠ .RUNNING →
      ∃ c', handle_ax25_frame c f = .ok c' ∧
        c'.outgoing_frames = [ua_response f f.control_field.poll_final] ∧
        (ua_response f f.control_field.poll_final).control_field.frame_type
          = U_FRAME ||| UNN_UA ∧
        (ua_response f f.control_field.poll_final).control_field.poll_final
          = f.control_field.poll_final ∧
        c'.state = .CONNECTED ∧
        c'.keepalive_timer.state = .RUNNING ∧
        c'.remote_address = some f.address_field.source ∧
        c'.sequence_number = 0 ∧ c'.receive_sequence_number = 0 ∧
        c'.ack_sequence_number = 0) ∧
    (c.keepalive_timer.state = .RUNNING → handle_ax25_frame c f = .error ()) := by
  constructor
  · intro ht3
    have hstart : c.keepalive_timer.start
        = .ok { c.keepalive_timer with state := .RUNNING, starts := c.keepalive_timer.starts + 1 } := by
      unfold Timer.start
      rw [if_neg ht3]
    refine ⟨{ local_address := c.local_address, state := .CONNECTED,
              remote_address := some f.address_field.source, modulo := .MOD_8,
              outgoing_frames := [ua_response f f.control_field.poll_final],
              ui_delivered := c.ui_delivered, peer_busy := c.peer_busy,
              sequence_number := 0, receive_sequence_number := 0, ack_sequence_number := 0,
              keepalive_timer := { state := .RUNNING, callbacks := c.keepalive_timer.callbacks,
                                   starts := c.keepalive_timer.starts + 1 },
              i_frame_timer := c.i_frame_timer }, ?_, rfl, rfl, rfl, rfl, rfl, rfl, rfl, rfl, rfl⟩
    simp [handle_ax25_frame, hstate, disconnected_frame_handler, hty, hmod, hstart,
          reset_state, send_ax25_frame]
  · intro ht3
    have hstart : c.keepalive_timer.start = .error () := by
      unfold Timer.start
      rw [if_pos ht3]
    simp [handle_ax25_frame, hstate, disconnected_frame_handler, hty, hmod, hstart,
          reset_state]

/-- C3 (witness): both halves of the theorem — the fresh connection
`Samples.conn3` connects on the concrete SABM, and `Samples.conn3r`, whose
T3 is still RUNNING, raises instead. -/
theorem C3_witness :
    (∃ c', handle_ax25_frame Samples.conn3 Samples.sabmF = .ok c' ∧
      c'.outgoing_frames = [ua_response Samples.sabmF false] ∧
      c'.state = .CONNECTED ∧
      c'.keepalive_timer.state = .RUNNING ∧
      c'.remote_address = some Samples.addrN) ∧
    handle_ax25_frame Samples.conn3r Samples.sabmF = .error () := by
  constructor
  · obtain ⟨h1, _⟩ := C3_sabm_connect Samples.conn3 Samples.sabmF rfl (by decide) rfl
    obtain ⟨c', ha, hb, _, _, hc, hd, he, _, _, _⟩ := h1 (by decide)
    exact ⟨c', ha, hb, hc, hd, he⟩
  · exact (C3_sabm_connect Samples.conn3r Samples.sabmF rfl (by decide) rfl).2 rfl

/-- C4 (counterexample): a CONNECTED connection receiving an in-sequence
I-frame neither increments V(R) nor schedules an RR — the handler has no
I-frame branch at all, so the frame falls into the logging else. -/
theorem C4_counterexample :
    Samples.conn4.state = .CONNECTED ∧
    Samples.iframeF.control_field.frame_type = I_FRAME ∧
    Samples.iframeF.control_field.sequence = some Samples.conn4.receive_sequence_number ∧
    ¬ C4Property Samples.conn4 Samples.iframeF := by
  unfold C4Property
  decide

/-- C4 (amended): an I-frame received in CONNECTED — in particular one
with N(S) = V(R) — is ignored entirely: the connection is returned
unchanged, so nothing is delivered, V(R) stays put, nothing is
acknowledged and no RR is scheduled. -/
theorem C4_iframe_ignored (c : AX25Connection) (f : AX25Frame)
    (hstate : c.state = .CONNECTED)
    (hty : f.control_field.frame_type = I_FRAME)
    (hns : f.control_field.sequence = some c.receive_sequence_number) :
    handle_ax25_frame c f = .ok c := by
  simp [handle_ax25_frame, hstate, connected_frame_handler, hty,
        UNN_UI, UNN_DISC, UNN_SABM, UNN_SABME, UNN_UA, UNN_DM, UNN_FRMR,
        SUP_RR, SUP_RNR, S_FRAME, U_FRAME, I_FRAME]

/-- C4 (witness): the amended theorem at a concrete connection and frame. -/
theorem C4_witness :
    handle_ax25_frame Samples.conn4 Samples.iframeF = .ok Samples.conn4 :=
  C4_iframe_ignored Samples.conn4 Samples.iframeF rfl rfl rfl

end MPMM

namespace AX25

theorem except_bind_ok {ε α β : Type} (a : α) (f : α → Except ε β) :
    (Except.ok a >>= f) = f a := rfl

theorem except_bind_error {ε α β : Type} (e : ε) (f : α → Except ε β) :
    ((Except.error e : Except ε α) >>= f) = .error e := rfl

theorem takeUntilMarker_length_le (l : List Nat) :
    (takeUntilMarker l).length ≤ l.length := by
  induction l with
  | nil => simp [takeUntilMarker]
  | cons b rest ih =>
    unfold takeUntilMarker
    split <;> simp <;> omega

theorem address_decode_short (l : List Nat) (h : l.length < 7) :
    AX25Address.decode l = .error .malformed := by
  unfold AX25Address.decode
  rw [List.getElem?_eq_none (by omega)]

theorem address_decode_ok (l : List Nat) (h : 7 ≤ l.length) :
    ∃ a, AX25Address.decode l = .ok a := by
  unfold AX25Address.decode
  rw [List.getElem?_eq_getElem (by omega)]
  exact ⟨_, rfl⟩

theorem field_decode_short (l : List Nat) (h : l.length < 14) :
    AX25AddressField.decode l = .error .malformed := by
  unfold AX25AddressField.decode
  by_cases h7 : l.length < 7
  · have hd : AX25Address.decode (l.take 7) = .error .malformed :=
      address_decode_short _ (by rw [List.length_take]; omega)
    simp [hd, except_bind_error]
  · obtain ⟨a, ha⟩ := address_decode_ok (l.take 7) (by rw [List.length_take]; omega)
    have hs : AX25Address.decode ((l.drop 7).take 7) = .error .malformed :=
      address_decode_short _ (by rw [List.length_take, List.length_drop]; omega)
    simp [ha, hs, except_bind_ok, except_bind_error]

theorem decode_short (d : List Nat) (h : d.length ≤ 14) :
    AX25Frame.decode d .MOD_8 = .error .malformed := by
  unfold AX25Frame.decode decode_address_field
  by_cases hab : (takeUntilMarker d).length < 14
  · simp [field_decode_short _ hab, except_bind_error]
  · have h14 : (takeUntilMarker d).length = 14 := by
      have := takeUntilMarker_length_le d
      omega
    obtain ⟨a1, ha1⟩ := address_decode_ok ((takeUntilMarker d).take 7)
      (by rw [List.length_take]; omega)
    obtain ⟨a2, ha2⟩ := address_decode_ok (((takeUntilMarker d).drop 7).take 7)
      (by rw [List.length_take, List.length_drop]; omega)
    have hfield : AX25AddressField.decode (takeUntilMarker d)
        = .ok { source := a2, destination := a1, path := [], length := 14 } := by
      unfold AX25AddressField.decode
      rw [ha1, ha2, h14]
      simp [except_bind_ok]
    have hdrop : d.drop 14 = [] := List.drop_eq_nil_of_le h
    simp [hfield, hdrop, AX25ControlField.decode, AX25Modulo.val,
          except_bind_ok, except_bind_error]

/-- C10 (counterexample): for a field whose command/repeat bits already
carry the response values, get_response_field leaves the field unchanged,
so "does not leave F unchanged" fails as a universal statement. -/
theorem C10_counterexample : ¬ C10Property Samples.f10 := by
  unfold C10Property
  decide

/-- C10 (amended): get_response_field overwrites the command/repeat bits
through the shared address objects — afterwards F.destination's bit is
True, F.source's and every path entry's are False (mutating F whenever
they differed; F is unchanged exactly when the values already matched),
and the returned response field carries the same values. -/
theorem C10_response_field_mutates (f : AX25AddressField) :
    (get_response_field f).2.destination.command_repeat_bit = true ∧
    (get_response_field f).2.source.command_repeat_bit = false ∧
    (∀ a ∈ (get_response_field f).2.path, a.command_repeat_bit = false) ∧
    (get_response_field f).1.source.command_repeat_bit = true ∧
    (get_response_field f).1.destination.command_repeat_bit = false ∧
    (∀ a ∈ (get_response_field f).1.path, a.command_repeat_bit = false) := by
  refine ⟨rfl, rfl, ?_, rfl, rfl, ?_⟩ <;> simp [get_response_field]

end AX25

namespace Shared

open AX25

/-- C9 (confirmed): a KISS payload too short for the required address and
control fields always fails AX.25 decoding with a malformed-frame error,
and recieve_frame — whose whole body sits in a try/except — swallows the
error and delivers nothing to any data callback, returning normally. -/
theorem C9_malformed_dropped (d : List Nat) (n : Nat) (h : d.length ≤ 14) :
    AX25Frame.decode d .MOD_8 = .error .malformed ∧ recieve_frame d n = [] := by
  have hdec := AX25.decode_short d h
  exact ⟨hdec, by simp [recieve_frame, recieve_frame_body, hdec]⟩

/-- C9 (witness): the theorem at a one-byte truncated frame with two
registered callbacks. -/
theorem C9_witness :
    AX25Frame.decode [1] .MOD_8 = .error .malformed ∧ recieve_frame [1] 2 = [] :=
  C9_malformed_dropped [1] 2 (by decide)

/-- C8 (counterexample): with listeners X-0 then Y-0 registered and an
inbound frame for Y-0, the controller invokes listener X-0's accept
callback — `[listener for listener in self._listeners][0]` takes the
first listener, not the matching one. -/
theorem C8_counterexample :
    Samples.ctrl8.connections = [] ∧
    Samples.frame8.control_field.frame_type &&& UNN_UI = 0 ∧
    callId Samples.frame8.address_field.destination
      ∈ Samples.ctrl8.listeners.map (·.callsign) ∧
    ¬ C8Property Samples.ctrl8 Samples.frame8 7 0 := by
  refine ⟨rfl, by decide, by decide, ?_⟩
  unfold C8Property
  decide

/-- C8 (amended): when no connection matches, the frame is not UI and the
destination callsign matches a registered listener, the controller creates
a new connection for (destination, source, transport, port) seeded with
the frame, registers it under that key, and invokes the accept callback of
the FIRST registered listener, whichever listener matched. -/
theorem C8_listener_accept (ctrl : AX25Controller) (axframe : AX25Frame)
    (source kiss_port : Nat) (l : AX25Listener) (rest : List AX25Listener)
    (hl : ctrl.listeners = l :: rest)
    (hnoconn : ctrl.connections.find? (fun e =>
      e.1 = ((callId axframe.address_field.destination, callId axframe.address_field.source,
              source, kiss_port) : ConnKey)) = none)
    (hnotui : axframe.control_field.frame_type &&& UNN_UI = 0)
    (hmatch : (callId axframe.address_field.destination) ∈ ctrl.listeners.map (·.callsign)) :
    data_recieved ctrl axframe source kiss_port =
      { ctrl := { ctrl with connections := ctrl.connections ++
          [((callId axframe.address_field.destination, callId axframe.address_field.source,
             source, kiss_port),
            { local_callsign := callId axframe.address_field.destination,
              remote_callsign := callId axframe.address_field.source,
              client := source, port := kiss_port, incoming := [axframe] })] },
        accepted := some l.callsign } := by
  have hm : callId axframe.address_field.destination
      ∈ List.map (fun x => x.callsign) (l :: rest) := hl ▸ hmatch
  simp [data_recieved, hnoconn, hnotui, hl, hm, SharedConnection.key]
  intro hne
  rcases List.mem_map.mp hm with ⟨x, hx, hcs⟩
  rcases List.mem_cons.mp hx with rfl | hxr
  · exact absurd hcs.symm hne
  · exact ⟨x, hxr, hcs⟩

/-- C8 (witness): the amended theorem at the two-listener controller. -/
theorem C8_witness :
    data_recieved Samples.ctrl8 Samples.frame8 7 0 =
      { ctrl := { Samples.ctrl8 with connections := Samples.ctrl8.connections ++
          [((callId Samples.frame8.address_field.destination,
             callId Samples.frame8.address_field.source, 7, 0),
            { local_callsign := callId Samples.frame8.address_field.destination,
              remote_callsign := callId Samples.frame8.address_field.source,
              client := 7, port := 0, incoming := [Samples.frame8] })] },
        accepted := some Samples.lisX.callsign } :=
  C8_listener_accept Samples.ctrl8 Samples.frame8 7 0 Samples.lisX [Samples.lisY]
    rfl rfl (by decide) (by decide)

end Shared

namespace AX25

theorem validChar_not_space (c : Nat) (h : validChar c) : pyIsSpace c = false := by
  have hb : 48 ≤ c := by
    unfold validChar at h
    rcases h with ⟨h1, _⟩ | ⟨h1, _⟩ <;> omega
  have hne : c ≠ 32 := by omega
  unfold pyIsSpace
  simp [hne]
  omega

theorem dropWhile_replicate_space (n : Nat) (l : List Nat) :
    List.dropWhile pyIsSpace (List.replicate n 32 ++ l) = List.dropWhile pyIsSpace l := by
  induction n with
  | zero => simp
  | succ m ih => simpa [List.replicate_succ, List.dropWhile_cons] using ih

theorem dropWhile_of_not_space (l : List Nat) (h : ∀ c ∈ l, pyIsSpace c = false) :
    List.dropWhile pyIsSpace l = l := by
  cases l with
  | nil => rfl
  | cons c rest => simp [List.dropWhile_cons, h c (by simp)]

theorem pyStrip_pad (cs : List Nat) (h : ∀ c ∈ cs, validChar c) (n : Nat) :
    pyStrip (cs ++ List.replicate n 32) = cs := by
  have hns : ∀ c ∈ cs, pyIsSpace c = false := fun c hc => validChar_not_space c (h c hc)
  unfold pyStrip
  cases cs with
  | nil =>
    simp only [List.nil_append]
    have h1 : List.dropWhile pyIsSpace (List.replicate n 32) = [] := by
      simpa using dropWhile_replicate_space n []
    simp [h1]
  | cons c rest =>
    have hc : pyIsSpace c = false := hns c (by simp)
    rw [List.cons_append, List.dropWhile_cons, hc]
    simp only [Bool.false_eq_true, if_false]
    rw [show (c :: (rest ++ List.replicate n 32)).reverse
        = List.replicate n 32 ++ (c :: rest).reverse from by simp]
    rw [dropWhile_replicate_space]
    rw [dropWhile_of_not_space ((c :: rest).reverse)
      (fun x hx => hns x (List.mem_reverse.mp hx))]
    simp

end AX25
namespace AX25

theorem finalByte_bits (cs : List Nat) (ssid : Nat) (b5 b6 crb : Bool)
    (h : ssid ≤ 15) (extra : Nat) (he : extra ≤ 1) :
    ((finalByte ⟨cs, ssid, b5, b6, crb⟩ ||| extra) &&& 30) >>> 1 = ssid ∧
    decide ((finalByte ⟨cs, ssid, b5, b6, crb⟩ ||| extra) &&& 32 ≠ 0) = b5 ∧
    decide ((finalByte ⟨cs, ssid, b5, b6, crb⟩ ||| extra) &&& 64 ≠ 0) = b6 ∧
    decide ((finalByte ⟨cs, ssid, b5, b6, crb⟩ ||| extra) &&& 128 ≠ 0) = crb ∧
    (finalByte ⟨cs, ssid, b5, b6, crb⟩ ||| extra) < 256 ∧
    (finalByte ⟨cs, ssid, b5, b6, crb⟩ ||| extra) % 2 = extra := by
  rw [show finalByte ⟨cs, ssid, b5, b6, crb⟩
      = ((ssid <<< 1 ||| (if b5 then 32 else 0)) ||| (if b6 then 64 else 0))
        ||| (if crb then 128 else 0) from rfl]
  cases b5 <;> cases b6 <;> cases crb <;> interval_cases ssid <;> interval_cases extra <;>
    exact by decide

theorem shift_unshift : ((fun b => b >>> 1) ∘ fun b : Nat => b <<< 1) = id :=
  funext fun c => by simp [Nat.shiftLeft_eq, Nat.shiftRight_eq_div_pow]

theorem decA_general (cs : List Nat) (ssid : Nat) (b5 b6 crb : Bool)
    (hlen : cs.length ≤ 6) (hchars : ∀ c ∈ cs, validChar c) (hssid : ssid ≤ 15)
    (extra : Nat) (he : extra ≤ 1) :
    AX25Address.decode
      (((cs ++ List.replicate (6 - cs.length) 32).map (· <<< 1))
        ++ [finalByte ⟨cs, ssid, b5, b6, crb⟩ ||| extra])
      = .ok ⟨cs, ssid, b5, b6, crb⟩ := by
  obtain ⟨e1, e2, e3, e4, _, _⟩ := finalByte_bits cs ssid b5 b6 crb hssid extra he
  set x := (cs ++ List.replicate (6 - cs.length) 32).map (· <<< 1) with hxdef
  have hxlen : x.length = 6 := by
    rw [hxdef]
    simp
    omega
  unfold AX25Address.decode
  rw [List.getElem?_append_right (by omega)]
  rw [hxlen]
  rw [show (6 : Nat) - 6 = 0 from rfl]
  simp only [List.getElem?_cons_zero]
  rw [show (6 : Nat) = x.length from hxlen.symm, List.take_left]
  rw [hxdef, List.map_map, shift_unshift, List.map_id]
  rw [pyStrip_pad cs hchars]
  rw [Except.ok.injEq, AX25Address.mk.injEq]
  exact ⟨rfl, e1, e2, e3, e4⟩

end AX25
namespace AX25

theorem setLast1_append_single (x : List Nat) (b : Nat) :
    setLast1 (x ++ [b]) = x ++ [b ||| 1] := by
  induction x with
  | nil => rfl
  | cons a rest ih =>
    cases rest with
    | nil => rfl
    | cons c cs =>
      show a :: setLast1 ((c :: cs) ++ [b]) = a :: ((c :: cs) ++ [b ||| 1])
      rw [ih]

theorem setLast1_append (x y : List Nat) (hy : y ≠ []) :
    setLast1 (x ++ y) = x ++ setLast1 y := by
  rw [← List.dropLast_append_getLast hy]
  rw [← List.append_assoc, setLast1_append_single, setLast1_append_single, List.append_assoc]

theorem encA_length (a : AX25Address) (hv : validAddress a) : (encA a).length = 7 := by
  obtain ⟨⟨hlen, _⟩, _⟩ := hv
  unfold encA
  simp
  omega

theorem encA_ne_nil (a : AX25Address) : encA a ≠ [] := by
  unfold encA
  simp

theorem finalByte_lt (a : AX25Address) (h : a.ssid ≤ 15) : finalByte a < 256 := by
  have := (finalByte_bits a.callsign a.ssid a.reserved_bit_5 a.reserved_bit_6
    a.command_repeat_bit h 0 (by omega)).2.2.2.2.1
  simpa using this

theorem encode_encA (a : AX25Address) (hv : validAddress a) :
    AX25Address.encode a = .ok (encA a) := by
  have hfb : finalByte a < 256 := finalByte_lt a hv.2
  obtain ⟨⟨hlen, hchars⟩, hssid⟩ := hv
  have hall : ∀ b ∈ (a.callsign ++ List.replicate (6 - a.callsign.length) 32).map (· <<< 1)
      ++ [finalByte a], b < 256 := by
    intro b hb
    rcases List.mem_append.mp hb with h | h
    · obtain ⟨c, hc, rfl⟩ := List.mem_map.mp h
      rcases List.mem_append.mp hc with hcc | hcr
      · have := hchars c hcc
        unfold validChar at this
        rw [Nat.shiftLeft_eq]
        rcases this with ⟨_, h2⟩ | ⟨_, h2⟩ <;> omega
      · have : c = 32 := List.eq_of_mem_replicate hcr
        subst this
        decide
    · rw [List.mem_singleton.mp h]
      exact hfb
  unfold AX25Address.encode encA
  rw [if_pos]
  exact List.all_eq_true.mpr fun b hb => decide_eq_true (hall b hb)

theorem decode_encA (a : AX25Address) (hv : validAddress a) :
    AX25Address.decode (encA a) = .ok a := by
  obtain ⟨cs, ssid, b5, b6, crb⟩ := a
  have h0 : finalByte ⟨cs, ssid, b5, b6, crb⟩ ||| 0 = finalByte ⟨cs, ssid, b5, b6, crb⟩ :=
    Nat.or_zero _
  have := decA_general cs ssid b5 b6 crb hv.1.1 hv.1.2 hv.2 0 (by omega)
  rw [h0] at this
  exact this

theorem decode_encA_bump (a : AX25Address) (hv : validAddress a) :
    AX25Address.decode (setLast1 (encA a)) = .ok a := by
  obtain ⟨cs, ssid, b5, b6, crb⟩ := a
  have := decA_general cs ssid b5 b6 crb hv.1.1 hv.1.2 hv.2 1 (by omega)
  rw [show encA ⟨cs, ssid, b5, b6, crb⟩
      = ((cs ++ List.replicate (6 - cs.length) 32).map (· <<< 1))
        ++ [finalByte ⟨cs, ssid, b5, b6, crb⟩] from rfl]
  rw [setLast1_append_single]
  exact this

end AX25
namespace AX25

theorem encA_even (a : AX25Address) (hssid : a.ssid ≤ 15) :
    ∀ b ∈ encA a, b % 2 = 0 := by
  intro b hb
  unfold encA at hb
  rcases List.mem_append.mp hb with h | h
  · obtain ⟨c, _, rfl⟩ := List.mem_map.mp h
    rw [Nat.shiftLeft_eq]
    omega
  · rw [List.mem_singleton.mp h]
    have := (finalByte_bits a.callsign a.ssid a.reserved_bit_5 a.reserved_bit_6
      a.command_repeat_bit hssid 0 (by omega)).2.2.2.2.2
    simpa using this

theorem bump_odd (a : AX25Address) (hssid : a.ssid ≤ 15) : (finalByte a ||| 1) % 2 = 1 := by
  have := (finalByte_bits a.callsign a.ssid a.reserved_bit_5 a.reserved_bit_6
    a.command_repeat_bit hssid 1 (by omega)).2.2.2.2.2
  simpa using this

theorem setLast1_encA (a : AX25Address) :
    setLast1 (encA a)
      = (a.callsign ++ List.replicate (6 - a.callsign.length) 32).map (· <<< 1)
        ++ [finalByte a ||| 1] := by
  unfold encA
  exact setLast1_append_single _ _

theorem takeUntilMarker_exact (init : List Nat) (lastb : Nat) (rest : List Nat)
    (h1 : ∀ b ∈ init, b % 2 = 0) (h2 : lastb % 2 = 1) :
    takeUntilMarker (init ++ lastb :: rest) = init ++ [lastb] := by
  induction init with
  | nil => simp [takeUntilMarker, Nat.and_one_is_mod, h2]
  | cons b bs ih =>
    have hb : b % 2 = 0 := h1 b (by simp)
    have ihb := ih (fun x hx => h1 x (by simp [hx]))
    simp only [List.cons_append]
    unfold takeUntilMarker
    rw [Nat.and_one_is_mod]
    simp [hb, ihb]

theorem chunk7_flatten (bs : List (List Nat)) (h : ∀ b ∈ bs, b.length = 7) :
    chunk7 bs.flatten = bs := by
  induction bs with
  | nil => simp [chunk7]
  | cons b rest ih =>
    have hb : b.length = 7 := h b (by simp)
    obtain ⟨c, cs, rfl⟩ : ∃ c cs, b = c :: cs := by
      cases b with
      | nil => simp at hb
      | cons c cs => exact ⟨c, cs, rfl⟩
    have hcs : cs.length = 6 := by simpa using hb
    rw [List.flatten_cons, List.cons_append]
    unfold chunk7
    rw [← hcs, List.take_left, List.drop_left]
    rw [ih (fun x hx => h x (by simp [hx]))]

theorem mapM_encode_encA (l : List AX25Address) (h : ∀ a ∈ l, validAddress a) :
    List.mapM AX25Address.encode l = .ok (l.map encA) := by
  induction l with
  | nil => rfl
  | cons a rest ih =>
    rw [List.mapM_cons, encode_encA a (h a (by simp)), ih (fun x hx => h x (by simp [hx]))]
    rfl

theorem mapM_decode_encA (l : List AX25Address) (h : ∀ a ∈ l, validAddress a) :
    List.mapM AX25Address.decode (l.map encA) = .ok l := by
  induction l with
  | nil => rfl
  | cons a rest ih =>
    rw [List.map_cons, List.mapM_cons, decode_encA a (h a (by simp)),
      ih (fun x hx => h x (by simp [hx]))]
    rfl

theorem mapM_decode_bump (init : List AX25Address) (lastA : AX25Address)
    (h : ∀ a ∈ init ++ [lastA], validAddress a) :
    List.mapM AX25Address.decode (init.map encA ++ [setLast1 (encA lastA)])
      = .ok (init ++ [lastA]) := by
  induction init with
  | nil =>
    simp only [List.map_nil, List.nil_append]
    rw [List.mapM_cons, decode_encA_bump lastA (h lastA (by simp))]
    rfl
  | cons a rest ih =>
    rw [List.map_cons, List.cons_append, List.mapM_cons, decode_encA a (h a (by simp)),
      ih (fun x hx => h x (by simp at hx ⊢; tauto))]
    rfl

end AX25
namespace AX25

theorem setLast1_length (l : List Nat) : (setLast1 l).length = l.length := by
  induction l with
  | nil => rfl
  | cons a rest ih =>
    cases rest with
    | nil => rfl
    | cons c cs =>
      show (a :: setLast1 (c :: cs)).length = (a :: c :: cs).length
      simpa using ih

theorem flatten_encA_length (l : List AX25Address) (h : ∀ a ∈ l, validAddress a) :
    ((l.map encA).flatten).length = 7 * l.length := by
  induction l with
  | nil => rfl
  | cons a rest ih =>
    rw [List.map_cons, List.flatten_cons, List.length_append,
      encA_length a (h a (by simp)), ih (fun x hx => h x (by simp [hx])), List.length_cons]
    ring

theorem field_encode_encF (f : AX25AddressField) (hv : validAddressField f) :
    AX25AddressField.encode f = .ok (encF f) := by
  obtain ⟨hs, hd, hp⟩ := hv
  unfold AX25AddressField.encode encF
  rw [encode_encA _ hd, encode_encA _ hs, mapM_encode_encA _ hp]
  rfl

theorem field_decode_nil_path (f : AX25AddressField) (hv : validAddressField f)
    (hp : f.path = []) :
    AX25AddressField.decode (encF f)
      = .ok { source := f.source, destination := f.destination, path := [], length := 14 } ∧
    encF f = encA f.destination ++ setLast1 (encA f.source) := by
  obtain ⟨hs, hd, _⟩ := hv
  have henc : encF f = encA f.destination ++ setLast1 (encA f.source) := by
    unfold encF
    rw [hp]
    simp only [List.map_nil, List.flatten_nil, List.append_nil]
    exact setLast1_append _ _ (encA_ne_nil _)
  refine ⟨?_, henc⟩
  rw [henc]
  have hlen : (encA f.destination ++ setLast1 (encA f.source)).length = 14 := by
    rw [List.length_append, setLast1_length, encA_length _ hd, encA_length _ hs]
  have htake1 : (encA f.destination ++ setLast1 (encA f.source)).take 7 = encA f.destination := by
    rw [← encA_length f.destination hd, List.take_left]
  have hdrop1 : (encA f.destination ++ setLast1 (encA f.source)).drop 7
      = setLast1 (encA f.source) := by
    rw [← encA_length f.destination hd, List.drop_left]
  have htake2 : (setLast1 (encA f.source)).take 7 = setLast1 (encA f.source) :=
    List.take_of_length_le (le_of_eq (by rw [setLast1_length, encA_length _ hs]))
  unfold AX25AddressField.decode
  rw [htake1, hdrop1, htake2, decode_encA _ hd, decode_encA_bump _ hs, hlen]
  rfl

end AX25
namespace AX25

theorem field_decode_concat_path (f : AX25AddressField)
    (ps : List AX25Address) (pl : AX25Address) (hp : f.path = ps ++ [pl])
    (hv : validAddressField f) :
    AX25AddressField.decode (encF f)
      = .ok { source := f.source, destination := f.destination, path := f.path,
              length := 14 + 7 * f.path.length } ∧
    encF f = encA f.destination
      ++ (encA f.source ++ ((ps.map encA).flatten ++ setLast1 (encA pl))) := by
  obtain ⟨hs, hd, hpv⟩ := hv
  have hpsv : ∀ a ∈ ps, validAddress a := fun a ha => hpv a (by simp [hp, ha])
  have hplv : validAddress pl := hpv pl (by simp [hp])
  have henc : encF f = encA f.destination
      ++ (encA f.source ++ ((ps.map encA).flatten ++ setLast1 (encA pl))) := by
    unfold encF
    rw [hp, List.map_append, List.flatten_append]
    rw [show (([pl].map encA).flatten) = encA pl from by simp]
    rw [show encA f.destination ++ encA f.source ++ ((ps.map encA).flatten ++ encA pl)
        = (encA f.destination ++ (encA f.source ++ (ps.map encA).flatten)) ++ encA pl from by
      simp [List.append_assoc]]
    rw [setLast1_append _ _ (encA_ne_nil pl)]
    simp [List.append_assoc]
  refine ⟨?_, henc⟩
  rw [henc]
  have hd7 : (encA f.destination).length = 7 := encA_length _ hd
  have hs7 : (encA f.source).length = 7 := encA_length _ hs
  have hflat : ((ps.map encA).flatten).length = 7 * ps.length := flatten_encA_length ps hpsv
  have hbump : (setLast1 (encA pl)).length = 7 := by rw [setLast1_length, encA_length _ hplv]
  have hplen : f.path.length = ps.length + 1 := by simp [hp]
  set D := encA f.destination with hD
  set S := encA f.source with hS
  set P := (ps.map encA).flatten with hP
  set L := setLast1 (encA pl) with hL
  have htot : (D ++ (S ++ (P ++ L))).length = 14 + 7 * f.path.length := by
    simp only [List.length_append, hd7, hs7, hflat, hbump, hplen]
    ring
  have htake1 : (D ++ (S ++ (P ++ L))).take 7 = D := by
    rw [← hd7, List.take_left]
  have hdrop1 : (D ++ (S ++ (P ++ L))).drop 7 = S ++ (P ++ L) := by
    rw [← hd7, List.drop_left]
  have htake2 : (S ++ (P ++ L)).take 7 = S := by
    rw [← hs7, List.take_left]
  have hdrop14 : (D ++ (S ++ (P ++ L))).drop 14 = P ++ L := by
    rw [show D ++ (S ++ (P ++ L)) = (D ++ S) ++ (P ++ L) from by simp [List.append_assoc]]
    rw [show (14 : Nat) = (D ++ S).length from by simp [hd7, hs7], List.drop_left]
  have hchunk : chunk7 (P ++ L) = ps.map encA ++ [L] := by
    rw [show P ++ L = (ps.map encA ++ [L]).flatten from by simp [hP]]
    refine chunk7_flatten _ ?_
    intro b hb
    rcases List.mem_append.mp hb with h | h
    · obtain ⟨a, ha, rfl⟩ := List.mem_map.mp h
      exact encA_length a (hpsv a ha)
    · rw [List.mem_singleton.mp h]
      exact hbump
  have hmapM : List.mapM AX25Address.decode (ps.map encA ++ [L]) = .ok (ps ++ [pl]) := by
    rw [hL]
    refine mapM_decode_bump ps pl ?_
    intro a ha
    rcases List.mem_append.mp ha with h | h
    · exact hpsv a h
    · rw [List.mem_singleton.mp h]
      exact hplv
  have hgt : 14 + 7 * f.path.length > 14 := by omega
  unfold AX25AddressField.decode
  rw [htake1, hdrop1, htake2, decode_encA _ hd, decode_encA _ hs, htot, hdrop14]
  simp only [except_bind_ok]
  rw [if_pos hgt, hchunk, hmapM]
  simp only [except_bind_ok]
  rw [← hp]

end AX25

namespace AX25

theorem even_shift (b : Nat) (h : b % 2 = 0) : (b >>> 1) <<< 1 = b := by
  rw [Nat.shiftRight_eq_div_pow, Nat.shiftLeft_eq]
  omega

theorem ctrl_roundtrip (c : AX25ControlField) (hc : canonicalControl c) :
    ∃ b, AX25ControlField.encode c .MOD_8 = .ok [b] ∧
      AX25ControlField.decode [b] .MOD_8 = .ok c := by
  obtain ⟨ft, pf, len, seq, rcv⟩ := c
  unfold canonicalControl at hc
  obtain ⟨hlen, hcase⟩ := hc
  dsimp only at hlen hcase
  subst hlen
  refine ⟨((AX25ControlField.encode ⟨ft, pf, 1, seq, rcv⟩ .MOD_8).toOption.getD []).headD 0, ?_⟩
  rcases hcase with h1 | h2 | h3
  · obtain ⟨hft, hseqE, hrcvE⟩ := h1
    simp only [optLe7] at hseqE hrcvE
    obtain ⟨s, hs, hs7⟩ := hseqE
    obtain ⟨r, hr, hr7⟩ := hrcvE
    subst hft hs hr
    cases pf <;> interval_cases s <;> interval_cases r <;> decide
  · obtain ⟨hft, hseq, hrcvE⟩ := h2
    simp only [optLe7] at hrcvE
    obtain ⟨r, hr, hr7⟩ := hrcvE
    subst hseq hr
    rcases hft with hft | hft | hft | hft <;> subst hft <;>
      cases pf <;> interval_cases r <;> decide
  · obtain ⟨hft, hseq, hrcv⟩ := h3
    subst hseq hrcv
    rcases hft with h | h | h | h | h | h | h | h | h <;> subst h <;> cases pf <;> decide

set_option maxRecDepth 8000 in
theorem finalByte_recon : ∀ b6, b6 < 256 →
    finalByte { callsign := [], ssid := (b6 &&& 30) >>> 1,
                reserved_bit_5 := b6 &&& 32 ≠ 0, reserved_bit_6 := b6 &&& 64 ≠ 0,
                command_repeat_bit := b6 &&& 128 ≠ 0 } = b6 &&& 254 ∧
    (b6 % 2 = 0 → b6 &&& 254 = b6) ∧ (b6 % 2 = 1 → (b6 &&& 254) ||| 1 = b6) := by
  decide

set_option maxRecDepth 8000 in
theorem ctrl_byte_facts : ∀ b, b < 256 →
    ((AX25ControlField.decode [b] .MOD_8).map AX25ControlField.length = .ok 1) ∧
    ((AX25ControlField.decode [b] .MOD_8).map
        (fun c => decide (c.frame_type &&& (I_FRAME ||| UNN_UI) ≠ 0))
      = .ok (decide (needsPid b))) ∧
    (wfCtrlByte b →
      (AX25ControlField.decode [b] .MOD_8).bind
        (fun c => AX25ControlField.encode c .MOD_8) = .ok [b]) := by
  decide

end AX25

namespace AX25

theorem csBytesOk_even (t : List Nat) (h : csBytesOk t = true) : ∀ b ∈ t, b % 2 = 0 := by
  intro b hb
  unfold csBytesOk at h
  rw [← List.takeWhile_append_dropWhile (p := shiftedOkB) (l := t)] at hb
  rcases List.mem_append.mp hb with h1 | h1
  · have hok := List.mem_takeWhile_imp h1
    unfold shiftedOkB at hok
    simp only [Bool.and_eq_true, decide_eq_true_eq] at hok
    exact hok.1
  · have h64 : b = 64 := by
      have := List.all_eq_true.mp h b h1
      simpa using this
    omega

theorem csBytes_recon (t : List Nat) (h : csBytesOk t = true) :
    (∀ c ∈ pyStrip (t.map (· >>> 1)), validChar c) ∧
    (pyStrip (t.map (· >>> 1))).length ≤ t.length ∧
    ((pyStrip (t.map (· >>> 1))) ++
        List.replicate (t.length - (pyStrip (t.map (· >>> 1))).length) 32).map (· <<< 1)
      = t := by
  unfold csBytesOk at h
  set u := t.takeWhile shiftedOkB with hu
  set v := t.dropWhile shiftedOkB with hv
  have htv : u ++ v = t := List.takeWhile_append_dropWhile shiftedOkB t
  have huok : ∀ b ∈ u, shiftedOkB b = true := fun b hb => List.mem_takeWhile_imp hb
  have huparts : ∀ b ∈ u, b % 2 = 0 ∧ validChar (b / 2) := by
    intro b hb
    have hok := huok b hb
    unfold shiftedOkB at hok
    simpa only [Bool.and_eq_true, decide_eq_true_eq] using hok
  have hv64 : ∀ b ∈ v, b = 64 := by
    intro b hb
    have := List.all_eq_true.mp h b hb
    simpa using this
  have hvrep : v = List.replicate v.length 64 := List.eq_replicate_of_mem hv64
  have hvmap : v.map (· >>> 1) = List.replicate v.length 32 := by
    conv_lhs => rw [hvrep]
    rw [List.map_replicate]
    rfl
  have hmap : t.map (· >>> 1) = u.map (· >>> 1) ++ List.replicate v.length 32 := by
    conv_lhs => rw [← htv]
    rw [List.map_append, hvmap]
  have huval : ∀ c ∈ u.map (· >>> 1), validChar c := by
    intro c hc
    obtain ⟨b, hb, rfl⟩ := List.mem_map.mp hc
    have := (huparts b hb).2
    rw [Nat.shiftRight_eq_div_pow]
    simpa using this
  have hstrip : pyStrip (t.map (· >>> 1)) = u.map (· >>> 1) := by
    rw [hmap]
    exact pyStrip_pad _ huval _
  refine ⟨by rw [hstrip]; exact huval, ?_, ?_⟩
  · rw [hstrip, ← htv]
    simp
  · rw [hstrip]
    have hlen : t.length - (u.map (· >>> 1)).length = v.length := by
      rw [← htv]
      simp
    rw [hlen, List.map_append]
    conv_rhs => rw [← htv]
    congr 1
    · rw [List.map_map]
      rw [List.map_congr_left (g := id) ?_, List.map_id]
      intro b hb
      have := huparts b hb
      simpa using even_shift b this.1
    · rw [List.map_replicate]
      conv_rhs => rw [hvrep]
      rfl

theorem list7_eq (g : List Nat) (h : g.length = 7) :
    g = g.take 6 ++ [g.getLastD 0] := by
  rcases g with _ | ⟨c0, g⟩
  · simp only [List.length_nil] at h
    omega
  rcases g with _ | ⟨c1, g⟩
  · simp only [List.length_cons, List.length_nil] at h
    omega
  rcases g with _ | ⟨c2, g⟩
  · simp only [List.length_cons, List.length_nil] at h
    omega
  rcases g with _ | ⟨c3, g⟩
  · simp only [List.length_cons, List.length_nil] at h
    omega
  rcases g with _ | ⟨c4, g⟩
  · simp only [List.length_cons, List.length_nil] at h
    omega
  rcases g with _ | ⟨c5, g⟩
  · simp only [List.length_cons, List.length_nil] at h
    omega
  rcases g with _ | ⟨c6, g⟩
  · simp only [List.length_cons, List.length_nil] at h
    omega
  rcases g with _ | ⟨c7, g⟩
  · rfl
  · simp only [List.length_cons] at h
    omega

theorem group_decode_core (t : List Nat) (b6 : Nat) (ht : t.length = 6)
    (hcs : csBytesOk t = true) (hb : b6 < 256) :
    ∃ a, AX25Address.decode (t ++ [b6]) = .ok a ∧ validAddress a ∧
      encA a = t ++ [b6 &&& 254] := by
  have hget : (t ++ [b6])[6]? = some b6 := by
    rw [List.getElem?_append_right (by omega)]
    rw [show (6 : Nat) - t.length = 0 from by omega]
    rfl
  have htake : (t ++ [b6]).take 6 = t := by
    rw [← ht, List.take_left]
  obtain ⟨hval, hle, hmap⟩ := csBytes_recon t hcs
  refine ⟨{ callsign := pyStrip (t.map (· >>> 1)), ssid := (b6 &&& 30) >>> 1,
            reserved_bit_5 := b6 &&& 32 ≠ 0, reserved_bit_6 := b6 &&& 64 ≠ 0,
            command_repeat_bit := b6 &&& 128 ≠ 0 }, ?_, ?_, ?_⟩
  · unfold AX25Address.decode
    rw [hget]
    dsimp only
    rw [htake]
  · unfold validAddress validCallsign
    refine ⟨⟨by rw [← ht]; exact hle, hval⟩, ?_⟩
    show (b6 &&& 30) >>> 1 ≤ 15
    have h30 : b6 &&& 30 ≤ 30 := Nat.and_le_right
    rw [Nat.shiftRight_eq_div_pow]
    omega
  · unfold encA
    dsimp only
    rw [show finalByte
          { callsign := pyStrip (t.map (· >>> 1)), ssid := (b6 &&& 30) >>> 1,
            reserved_bit_5 := b6 &&& 32 ≠ 0, reserved_bit_6 := b6 &&& 64 ≠ 0,
            command_repeat_bit := b6 &&& 128 ≠ 0 }
        = finalByte
          { callsign := ([] : List Nat), ssid := (b6 &&& 30) >>> 1,
            reserved_bit_5 := b6 &&& 32 ≠ 0, reserved_bit_6 := b6 &&& 64 ≠ 0,
            command_repeat_bit := b6 &&& 128 ≠ 0 } from rfl]
    rw [(finalByte_recon b6 hb).1]
    congr 1
    rw [← ht]
    exact hmap

theorem canonGroup_false_even (g : List Nat) (h : canonGroup g false) :
    ∀ b ∈ g, b % 2 = 0 := by
  unfold canonGroup at h
  obtain ⟨hlen, hcs, hlt, hpar⟩ := h
  intro b hb
  rw [list7_eq g hlen] at hb
  rcases List.mem_append.mp hb with h1 | h1
  · exact csBytesOk_even _ hcs b h1
  · rw [List.mem_singleton.mp h1]
    simpa using hpar

theorem group_decode_false (g : List Nat) (h : canonGroup g false) :
    ∃ a, AX25Address.decode g = .ok a ∧ validAddress a ∧ encA a = g := by
  obtain ⟨hlen, hcs, hlt, hpar⟩ := h
  have hg : g = g.take 6 ++ [g.getLastD 0] := list7_eq g hlen
  have ht6 : (g.take 6).length = 6 := by
    rw [List.length_take, hlen]
    omega
  obtain ⟨a, hd, hv, he⟩ := group_decode_core (g.take 6) (g.getLastD 0) ht6 hcs hlt
  refine ⟨a, by rw [hg]; exact hd, hv, ?_⟩
  rw [he, (finalByte_recon _ hlt).2.1 (by simpa using hpar)]
  exact hg.symm

theorem group_decode_true (g : List Nat) (h : canonGroup g true) :
    ∃ a, AX25Address.decode g = .ok a ∧ validAddress a ∧ setLast1 (encA a) = g := by
  obtain ⟨hlen, hcs, hlt, hpar⟩ := h
  have hg : g = g.take 6 ++ [g.getLastD 0] := list7_eq g hlen
  have ht6 : (g.take 6).length = 6 := by
    rw [List.length_take, hlen]
    omega
  obtain ⟨a, hd, hv, he⟩ := group_decode_core (g.take 6) (g.getLastD 0) ht6 hcs hlt
  refine ⟨a, by rw [hg]; exact hd, hv, ?_⟩
  rw [he, setLast1_append_single, (finalByte_recon _ hlt).2.2 (by simpa using hpar)]
  exact hg.symm

theorem mapM_group_decode (l : List (List Nat)) (h : ∀ g ∈ l, canonGroup g false) :
    ∃ as, List.mapM AX25Address.decode l = .ok as ∧
      (∀ a ∈ as, validAddress a) ∧ as.map encA = l := by
  induction l with
  | nil => exact ⟨[], rfl, fun a ha => absurd ha (List.not_mem_nil a), rfl⟩
  | cons g rest ih =>
    obtain ⟨a, hd, hv, he⟩ := group_decode_false g (h g (by simp))
    obtain ⟨as, hm, hvs, hes⟩ := ih (fun x hx => h x (by simp [hx]))
    refine ⟨a :: as, ?_, ?_, ?_⟩
    · rw [List.mapM_cons, hd, hm]
      rfl
    · intro x hx
      rcases List.mem_cons.mp hx with rfl | hx
      · exact hv
      · exact hvs x hx
    · simp [he, hes]

end AX25

namespace AX25

theorem encF_length (f : AX25AddressField) (hv : validAddressField f) :
    (encF f).length = 14 + 7 * f.path.length := by
  obtain ⟨hs, hd, hp⟩ := hv
  unfold encF
  rw [setLast1_length]
  simp only [List.length_append]
  rw [encA_length _ hd, encA_length _ hs, flatten_encA_length _ hp]

theorem field_decode_encF (f : AX25AddressField) (hv : validAddressField f) :
    AX25AddressField.decode (encF f)
      = .ok { source := f.source, destination := f.destination, path := f.path,
              length := 14 + 7 * f.path.length } := by
  rcases List.eq_nil_or_concat f.path with hp | ⟨ps, pl, hp⟩
  · have h := (field_decode_nil_path f hv hp).1
    rw [hp]
    simpa using h
  · rw [List.concat_eq_append] at hp
    exact (field_decode_concat_path f ps pl hp hv).1

theorem encF_split (f : AX25AddressField) (hv : validAddressField f) :
    ∃ init lastb, encF f = init ++ [lastb] ∧ (∀ b ∈ init, b % 2 = 0) ∧ lastb % 2 = 1 := by
  obtain ⟨hs, hd, hp⟩ := hv
  rcases List.eq_nil_or_concat f.path with hpn | ⟨ps, pl, hpc⟩
  · have henc := (field_decode_nil_path f ⟨hs, hd, hp⟩ hpn).2
    rw [henc, setLast1_encA]
    refine ⟨encA f.destination
        ++ (f.source.callsign ++ List.replicate (6 - f.source.callsign.length) 32).map (· <<< 1),
      finalByte f.source ||| 1, by simp [List.append_assoc], ?_, bump_odd _ hs.2⟩
    intro b hb
    rcases List.mem_append.mp hb with h1 | h1
    · exact encA_even _ hd.2 b h1
    · obtain ⟨c, _, rfl⟩ := List.mem_map.mp h1
      rw [Nat.shiftLeft_eq]
      omega
  · rw [List.concat_eq_append] at hpc
    have henc := (field_decode_concat_path f ps pl hpc ⟨hs, hd, hp⟩).2
    have hplv : validAddress pl := hp pl (by simp [hpc])
    rw [henc, setLast1_encA]
    refine ⟨encA f.destination ++ (encA f.source ++ ((ps.map encA).flatten
        ++ (pl.callsign ++ List.replicate (6 - pl.callsign.length) 32).map (· <<< 1))),
      finalByte pl ||| 1, by simp [List.append_assoc], ?_, bump_odd _ hplv.2⟩
    intro b hb
    rcases List.mem_append.mp hb with h1 | h1
    · exact encA_even _ hd.2 b h1
    rcases List.mem_append.mp h1 with h2 | h2
    · exact encA_even _ hs.2 b h2
    rcases List.mem_append.mp h2 with h3 | h3
    · obtain ⟨g, hg, hbg⟩ := List.mem_flatten.mp h3
      obtain ⟨a, ha, rfl⟩ := List.mem_map.mp hg
      have hav : validAddress a := hp a (by simp [hpc, ha])
      exact encA_even _ hav.2 b hbg
    · obtain ⟨c, _, rfl⟩ := List.mem_map.mp h3
      rw [Nat.shiftLeft_eq]
      omega

theorem takeUntilMarker_encF (f : AX25AddressField) (hv : validAddressField f)
    (rest : List Nat) :
    takeUntilMarker (encF f ++ rest) = encF f := by
  obtain ⟨init, lastb, heq, he, ho⟩ := encF_split f hv
  rw [heq, List.append_assoc, List.singleton_append,
    takeUntilMarker_exact init lastb rest he ho]

end AX25

namespace AX25

theorem frame_roundtrip (F : AX25Frame) (hF : canonicalFrame F) :
    ∃ bs, AX25Frame.encode F = .ok bs ∧ AX25Frame.decode bs .MOD_8 = .ok F := by
  unfold canonicalFrame wellFormedFrame at hF
  obtain ⟨⟨hva, hmod, hcc, hpid_iff, hpv⟩, hcanon, hlen, hinfo⟩ := hF
  obtain ⟨b, hencc, hdecc⟩ := ctrl_roundtrip F.control_field hcanon
  obtain ⟨i, hi⟩ : ∃ i, F.information = some i := by
    cases hI : F.information with
    | none => rw [hI] at hinfo; simp at hinfo
    | some v => exact ⟨v, rfl⟩
  have hclen : F.control_field.length = 1 := by
    have h := hcanon
    unfold canonicalControl at h
    exact h.1
  have hEL : (encF F.address_field).length = 14 + 7 * F.address_field.path.length :=
    encF_length _ hva
  cases hpid : F.pid with
  | none =>
    have hcond : ¬ (F.control_field.frame_type &&& (I_FRAME ||| UNN_UI) ≠ 0) :=
      fun hc => hpid_iff.mpr hc hpid
    refine ⟨encF F.address_field ++ b :: i, ?_, ?_⟩
    · unfold AX25Frame.encode
      rw [field_encode_encF _ hva, hmod, hencc]
      simp only [except_bind_ok]
      rw [hpid, hi]
      simp
    · have htum : takeUntilMarker (encF F.address_field ++ b :: i) = encF F.address_field :=
        takeUntilMarker_encF _ hva _
      have haddr : decode_address_field (encF F.address_field ++ b :: i)
          = .ok { source := F.address_field.source,
                  destination := F.address_field.destination,
                  path := F.address_field.path,
                  length := 14 + 7 * F.address_field.path.length } := by
        unfold decode_address_field
        rw [htum]
        exact field_decode_encF _ hva
      have hdropE : (encF F.address_field ++ b :: i).drop
            (14 + 7 * F.address_field.path.length) = b :: i := by
        rw [← hEL, List.drop_left]
      have hdrop1 : (encF F.address_field ++ b :: i).drop
            (14 + 7 * F.address_field.path.length + 1) = i := by
        rw [show encF F.address_field ++ b :: i
            = (encF F.address_field ++ [b]) ++ i from by simp]
        rw [show 14 + 7 * F.address_field.path.length + 1
            = (encF F.address_field ++ [b]).length from by simp [hEL]]
        rw [List.drop_left]
      unfold AX25Frame.decode
      rw [if_neg (by decide : ¬ (AX25Modulo.MOD_8 = AX25Modulo.MOD_128))]
      rw [haddr]
      simp only [except_bind_ok]
      dsimp only [AX25Modulo.val]
      rw [hdropE]
      rw [show List.take 1 (b :: i) = [b] from rfl]
      rw [hdecc]
      simp only [except_bind_ok]
      rw [hclen, if_neg hcond, hdrop1, ← hlen, ← hi, ← hpid, ← hmod]
  | some p =>
    have hcond : F.control_field.frame_type &&& (I_FRAME ||| UNN_UI) ≠ 0 :=
      hpid_iff.mp (by rw [hpid]; exact Option.some_ne_none p)
    have hpmem : p ∈ pidCodes := by
      rw [hpid] at hpv
      simpa [pidValid] using hpv
    refine ⟨encF F.address_field ++ b :: p :: i, ?_, ?_⟩
    · unfold AX25Frame.encode
      rw [field_encode_encF _ hva, hmod, hencc]
      simp only [except_bind_ok]
      rw [hpid, hi]
      simp
    · have htum : takeUntilMarker (encF F.address_field ++ b :: p :: i) = encF F.address_field :=
        takeUntilMarker_encF _ hva _
      have haddr : decode_address_field (encF F.address_field ++ b :: p :: i)
          = .ok { source := F.address_field.source,
                  destination := F.address_field.destination,
                  path := F.address_field.path,
                  length := 14 + 7 * F.address_field.path.length } := by
        unfold decode_address_field
        rw [htum]
        exact field_decode_encF _ hva
      have hdropE : (encF F.address_field ++ b :: p :: i).drop
            (14 + 7 * F.address_field.path.length) = b :: p :: i := by
        rw [← hEL, List.drop_left]
      have hdrop1 : (encF F.address_field ++ b :: p :: i).drop
            (14 + 7 * F.address_field.path.length + 1) = p :: i := by
        rw [show encF F.address_field ++ b :: p :: i
            = (encF F.address_field ++ [b]) ++ p :: i from by simp]
        rw [show 14 + 7 * F.address_field.path.length + 1
            = (encF F.address_field ++ [b]).length from by simp [hEL]]
        rw [List.drop_left]
      have hdrop2 : (encF F.address_field ++ b :: p :: i).drop
            (14 + 7 * F.address_field.path.length + 1 + 1) = i := by
        rw [show encF F.address_field ++ b :: p :: i
            = (encF F.address_field ++ [b] ++ [p]) ++ i from by simp]
        rw [show 14 + 7 * F.address_field.path.length + 1 + 1
            = (encF F.address_field ++ [b] ++ [p]).length from by simp [hEL]]
        rw [List.drop_left]
      unfold AX25Frame.decode
      rw [if_neg (by decide : ¬ (AX25Modulo.MOD_8 = AX25Modulo.MOD_128))]
      rw [haddr]
      simp only [except_bind_ok]
      dsimp only [AX25Modulo.val]
      rw [hdropE]
      rw [show List.take 1 (b :: p :: i) = [b] from rfl]
      rw [hdecc]
      simp only [except_bind_ok]
      rw [hclen, if_pos hcond, hdrop1]
      dsimp only [List.head?]
      rw [if_pos hpmem, hdrop2, ← hlen, ← hi, ← hpid, ← hmod]

end AX25

namespace AX25

theorem canonGroup_length (g : List Nat) (fl : Bool) (h : canonGroup g fl) : g.length = 7 := by
  unfold canonGroup at h
  exact h.1

theorem groups_split (groups : List (List Nat)) (h1 : 1 ≤ groups.length)
    (hmid : ∀ g ∈ groups.dropLast, canonGroup g false)
    (hlast : canonGroup (groups.getLastD []) true) :
    ∃ init lastb, groups.flatten = init ++ [lastb] ∧
      (∀ b ∈ init, b % 2 = 0) ∧ lastb % 2 = 1 := by
  rcases List.eq_nil_or_concat groups with h | ⟨gs, gl, hgg⟩
  · rw [h] at h1
    simp at h1
  rw [List.concat_eq_append] at hgg
  subst hgg
  have hdl : (gs ++ [gl]).dropLast = gs := by simp
  have hgl : (gs ++ [gl]).getLastD [] = gl := by simp
  rw [hdl] at hmid
  rw [hgl] at hlast
  have hlen7 : gl.length = 7 := canonGroup_length gl true hlast
  have hcs : csBytesOk (gl.take 6) = true := by
    unfold canonGroup at hlast
    exact hlast.2.1
  have hpar : gl.getLastD 0 % 2 = 1 := by
    unfold canonGroup at hlast
    simpa using hlast.2.2.2
  have hg : gl = gl.take 6 ++ [gl.getLastD 0] := list7_eq gl hlen7
  refine ⟨gs.flatten ++ gl.take 6, gl.getLastD 0, ?_, ?_, hpar⟩
  · conv_lhs => rw [show (gs ++ [gl]).flatten = gs.flatten ++ gl from by simp]
    conv_lhs => rw [hg]
    rw [List.append_assoc]
  · intro b hb
    rcases List.mem_append.mp hb with h1 | h1
    · obtain ⟨g, hgm, hbg⟩ := List.mem_flatten.mp h1
      exact canonGroup_false_even g (hmid g hgm) b hbg
    · exact csBytesOk_even _ hcs b h1

end AX25

namespace AX25

theorem field_decode_groups (groups : List (List Nat)) (h2 : 2 ≤ groups.length)
    (hmid : ∀ g ∈ groups.dropLast, canonGroup g false)
    (hlast : canonGroup (groups.getLastD []) true) :
    ∃ F : AX25AddressField,
      AX25AddressField.decode groups.flatten = .ok F ∧
      validAddressField F ∧
      F.length = groups.flatten.length ∧
      encF F = groups.flatten := by
  rcases List.eq_nil_or_concat groups with h | ⟨gs, gl, hgg⟩
  · rw [h] at h2
    simp at h2
  rw [List.concat_eq_append] at hgg
  subst hgg
  have hdl : (gs ++ [gl]).dropLast = gs := by simp
  have hglD : (gs ++ [gl]).getLastD [] = gl := by simp
  rw [hdl] at hmid
  rw [hglD] at hlast
  rcases gs with _ | ⟨g0, gs1⟩
  · simp at h2
  rcases gs1 with _ | ⟨g1, ps⟩
  · -- two groups only: destination and source, empty path
    obtain ⟨d, hd0, hdv, hde⟩ := group_decode_false g0 (hmid g0 (by simp))
    obtain ⟨s, hs0, hsv, hse⟩ := group_decode_true gl hlast
    have hg0len : g0.length = 7 := canonGroup_length g0 false (hmid g0 (by simp))
    have hgllen : gl.length = 7 := canonGroup_length gl true hlast
    have hBIG : ((g0 :: []) ++ [gl] : List (List Nat)).flatten = g0 ++ gl := by simp
    have htake1 : (g0 ++ gl).take 7 = g0 := by
      rw [← hg0len, List.take_left]
    have hdrop1 : (g0 ++ gl).drop 7 = gl := by
      rw [← hg0len, List.drop_left]
    have htake2 : gl.take 7 = gl := List.take_of_length_le (le_of_eq hgllen)
    have hlen14 : (g0 ++ gl).length = 14 := by
      rw [List.length_append, hg0len, hgllen]
    refine ⟨{ source := s, destination := d, path := [], length := 14 }, ?_, ?_, ?_, ?_⟩
    · rw [hBIG]
      unfold AX25AddressField.decode
      rw [htake1, hdrop1, htake2, hd0, hs0, hlen14]
      rfl
    · exact ⟨hsv, hdv, fun a ha => absurd ha (List.not_mem_nil a)⟩
    · rw [hBIG, hlen14]
    · rw [hBIG]
      unfold encF
      dsimp only
      rw [show (encA d ++ encA s ++ (([] : List AX25Address).map encA).flatten)
          = encA d ++ encA s from by simp]
      rw [setLast1_append _ _ (encA_ne_nil s), hde, hse]
  · -- destination, source and a nonempty repeater path
    obtain ⟨d, hd0, hdv, hde⟩ := group_decode_false g0 (hmid g0 (by simp))
    obtain ⟨s, hs0, hsv, hse⟩ := group_decode_false g1 (hmid g1 (by simp))
    have hps : ∀ g ∈ ps, canonGroup g false := fun g hg => hmid g (by simp [hg])
    obtain ⟨as, hmas, hvs, hesas⟩ := mapM_group_decode ps hps
    obtain ⟨al, hal0, halv, hale⟩ := group_decode_true gl hlast
    have hg0len : g0.length = 7 := canonGroup_length g0 false (hmid g0 (by simp))
    have hg1len : g1.length = 7 := canonGroup_length g1 false (hmid g1 (by simp))
    have hgllen : gl.length = 7 := canonGroup_length gl true hlast
    have hpsflat : ps.flatten.length = 7 * ps.length := by
      rw [← hesas, flatten_encA_length as hvs]
      simp
    have hBIG : ((g0 :: g1 :: ps) ++ [gl] : List (List Nat)).flatten
        = g0 ++ (g1 ++ (ps.flatten ++ gl)) := by simp
    have htake1 : (g0 ++ (g1 ++ (ps.flatten ++ gl))).take 7 = g0 := by
      rw [← hg0len, List.take_left]
    have hdrop1 : (g0 ++ (g1 ++ (ps.flatten ++ gl))).drop 7 = g1 ++ (ps.flatten ++ gl) := by
      rw [← hg0len, List.drop_left]
    have htake2 : (g1 ++ (ps.flatten ++ gl)).take 7 = g1 := by
      rw [← hg1len, List.take_left]
    have hlenBIG : (g0 ++ (g1 ++ (ps.flatten ++ gl))).length = 21 + 7 * ps.length := by
      simp only [List.length_append, hg0len, hg1len, hgllen, hpsflat]
      ring
    have hdrop14 : (g0 ++ (g1 ++ (ps.flatten ++ gl))).drop 14 = ps.flatten ++ gl := by
      rw [show g0 ++ (g1 ++ (ps.flatten ++ gl)) = (g0 ++ g1) ++ (ps.flatten ++ gl) from by
        simp [List.append_assoc]]
      rw [show (14 : Nat) = (g0 ++ g1).length from by simp [hg0len, hg1len], List.drop_left]
    have hchunk : chunk7 (ps.flatten ++ gl) = ps ++ [gl] := by
      rw [show ps.flatten ++ gl = (ps ++ [gl]).flatten from by simp]
      refine chunk7_flatten _ ?_
      intro g hg
      rcases List.mem_append.mp hg with h | h
      · exact canonGroup_length g false (hps g h)
      · rw [List.mem_singleton.mp h]
        exact hgllen
    have hmapMall : List.mapM AX25Address.decode (ps ++ [gl]) = .ok (as ++ [al]) := by
      rw [List.mapM_append, hmas]
      simp only [except_bind_ok]
      rw [List.mapM_cons, hal0]
      simp only [except_bind_ok]
      rw [List.mapM_nil]
      rfl
    refine ⟨{ source := s, destination := d, path := as ++ [al],
              length := 21 + 7 * ps.length }, ?_, ?_, ?_, ?_⟩
    · rw [hBIG]
      unfold AX25AddressField.decode
      rw [htake1, hdrop1, htake2, hd0, hs0, hlenBIG]
      simp only [except_bind_ok]
      rw [if_pos (by omega : 21 + 7 * ps.length > 14), hdrop14, hchunk, hmapMall]
      simp only [except_bind_ok]
    · refine ⟨hsv, hdv, ?_⟩
      intro a ha
      rcases List.mem_append.mp ha with h | h
      · exact hvs a h
      · rw [List.mem_singleton.mp h]
        exact halv
    · rw [hBIG, hlenBIG]
    · rw [hBIG]
      unfold encF
      dsimp only
      have hmape : ((as ++ [al]).map encA).flatten = ps.flatten ++ encA al := by
        rw [List.map_append, List.flatten_append]
        rw [hesas]
        simp
      rw [hmape]
      rw [show encA d ++ encA s ++ (ps.flatten ++ encA al)
          = (encA d ++ (encA s ++ ps.flatten)) ++ encA al from by simp [List.append_assoc]]
      rw [setLast1_append _ _ (encA_ne_nil al), hale, hde, hse]
      simp [List.append_assoc]

end AX25

namespace AX25

theorem wire_roundtrip (B : List Nat) (hB : wfWire B) :
    ∃ G, AX25Frame.decode B .MOD_8 = .ok G ∧ AX25Frame.encode G = .ok B := by
  unfold wfWire at hB
  obtain ⟨groups, ctrl, pidPart, info, hBeq, h2, hmid, hlast, hwf, hpidY, hpidN⟩ := hB
  obtain ⟨F, hdecF, hvF, hlenF, hencF⟩ := field_decode_groups groups h2 hmid hlast
  obtain ⟨init, lastb, hsplit, hinitE, hlastO⟩ := groups_split groups (by omega) hmid hlast
  have hctrl256 : ctrl < 256 := by
    have h := hwf
    unfold wfCtrlByte at h
    exact h.1
  obtain ⟨hcb1, hcb2, hcb3⟩ := ctrl_byte_facts ctrl hctrl256
  cases hdc : AX25ControlField.decode [ctrl] .MOD_8 with
  | error e =>
    rw [hdc] at hcb1
    simp [Except.map] at hcb1
  | ok c =>
  rw [hdc] at hcb1 hcb2
  have hclen : c.length = 1 := by
    simpa [Except.map] using hcb1
  have hneed : (c.frame_type &&& (I_FRAME ||| UNN_UI) ≠ 0) ↔ needsPid ctrl := by
    have h := hcb2
    simp only [Except.map, Except.ok.injEq] at h
    exact decide_eq_decide.mp h
  have hencC : AX25ControlField.encode c .MOD_8 = .ok [ctrl] := by
    have h := hcb3 hwf
    rw [hdc] at h
    simpa [except_bind_ok] using h
  have htum : takeUntilMarker B = groups.flatten := by
    rw [hBeq]
    conv_lhs => rw [hsplit]
    rw [List.append_assoc, List.singleton_append,
      takeUntilMarker_exact init lastb _ hinitE hlastO]
    exact hsplit.symm
  have haddr : decode_address_field B = .ok F := by
    unfold decode_address_field
    rw [htum, hdecF]
  have hdropB : B.drop F.length = ctrl :: (pidPart ++ info) := by
    rw [hBeq, hlenF, List.drop_left]
  unfold AX25Frame.decode
  rw [if_neg (by decide : ¬ (AX25Modulo.MOD_8 = AX25Modulo.MOD_128))]
  rw [haddr]
  simp only [except_bind_ok]
  dsimp only [AX25Modulo.val]
  rw [hdropB]
  rw [show List.take 1 (ctrl :: (pidPart ++ info)) = [ctrl] from rfl]
  rw [hdc]
  simp only [except_bind_ok]
  rw [hclen]
  by_cases hnp : needsPid ctrl
  · obtain ⟨p, hpmem, hpp⟩ := hpidY hnp
    subst hpp
    have hdrop1 : B.drop (F.length + 1) = p :: info := by
      rw [hBeq, show groups.flatten ++ ctrl :: ([p] ++ info)
          = (groups.flatten ++ [ctrl]) ++ (p :: info) from by simp]
      rw [show F.length + 1 = (groups.flatten ++ [ctrl]).length from by
        simp [List.length_append, hlenF]]
      rw [List.drop_left]
    have hdrop2 : B.drop (F.length + 1 + 1) = info := by
      rw [hBeq, show groups.flatten ++ ctrl :: ([p] ++ info)
          = (groups.flatten ++ [ctrl] ++ [p]) ++ info from by simp]
      rw [show F.length + 1 + 1 = (groups.flatten ++ [ctrl] ++ [p]).length from by
        simp [List.length_append, hlenF]]
      rw [List.drop_left]
    rw [if_pos (hneed.mpr hnp), hdrop1]
    dsimp only [List.head?]
    rw [if_pos hpmem, hdrop2]
    refine ⟨_, rfl, ?_⟩
    unfold AX25Frame.encode
    dsimp only
    rw [field_encode_encF F hvF, hencC]
    simp only [except_bind_ok]
    rw [hencF, hBeq]
    simp
  · have hpp := hpidN hnp
    subst hpp
    have hdrop1 : B.drop (F.length + 1) = info := by
      rw [hBeq, show groups.flatten ++ ctrl :: ([] ++ info)
          = (groups.flatten ++ [ctrl]) ++ info from by simp]
      rw [show F.length + 1 = (groups.flatten ++ [ctrl]).length from by
        simp [List.length_append, hlenF]]
      rw [List.drop_left]
    rw [if_neg (fun hc => hnp (hneed.mp hc)), hdrop1]
    refine ⟨_, rfl, ?_⟩
    unfold AX25Frame.encode
    dsimp only
    rw [field_encode_encF F hvF, hencC]
    simp only [except_bind_ok]
    rw [hencF, hBeq]
    simp

end AX25

namespace AX25

set_option maxRecDepth 8000 in
/-- C1 (counterexample): the S-frame `Samples.c1F0` is well-formed exactly as
the claim words it (valid addresses, a modulo-8 RR control field, no PID),
yet encoding and decoding it does not return the frame itself: the decoder
fills in the consumed lengths and the canonical sequence slots (an S frame
comes back with `sequence = None`, `length = 1`, the address field's length
14 and `information = b""`), while `c1F0` carries the dataclass defaults. -/
theorem C1_counterexample :
    wellFormedFrame Samples.c1F0 ∧ ¬ C1Property Samples.c1F0 := by
  constructor
  · decide
  · decide

/-- C1 (amended): the encode/decode round trip is exact on frames in
decoder-canonical form (well-formed, with the length fields holding the
decoded lengths, absent sequence numbers None and information present), and
the decode/encode round trip is exact on well-formed wire byte strings
(canonical 7-byte address groups with the end-of-address bit only on the
last, a recognised control byte, and a PID byte exactly when the control
byte calls for one). -/
theorem C1_roundtrip (F : AX25Frame) (B : List Nat)
    (hF : canonicalFrame F) (hB : wfWire B) :
    (∃ bs, AX25Frame.encode F = .ok bs ∧ AX25Frame.decode bs .MOD_8 = .ok F) ∧
    (∃ G, AX25Frame.decode B .MOD_8 = .ok G ∧ AX25Frame.encode G = .ok B) :=
  ⟨frame_roundtrip F hF, wire_roundtrip B hB⟩

set_option maxRecDepth 8000 in
/-- C1 witness: both halves of `C1_roundtrip` evaluated at the canonical
RR frame `Samples.c1F1` and the concrete wire frame `Samples.c1B1`. -/
theorem C1_witness :
    canonicalFrame Samples.c1F1 ∧ wfWire Samples.c1B1 ∧
    ((∃ bs, AX25Frame.encode Samples.c1F1 = .ok bs ∧
        AX25Frame.decode bs .MOD_8 = .ok Samples.c1F1) ∧
     (∃ G, AX25Frame.decode Samples.c1B1 .MOD_8 = .ok G ∧
        AX25Frame.encode G = .ok Samples.c1B1)) := by
  have hW : wfWire Samples.c1B1 := by
    unfold wfWire
    exact ⟨[[132, 64, 64, 64, 64, 64, 96], [130, 64, 64, 64, 64, 64, 97]], 115, [], [],
      by decide⟩
  exact ⟨by decide, hW, C1_roundtrip Samples.c1F1 Samples.c1B1 (by decide) hW⟩

end AX25
